import Mathlib

/-!
Verification of the session, identity and chat-routing layer of the
Neural Wings game server (GameServer.h, Connection.cpp, Chat.cpp,
StateSync.cpp, Lifecycle.cpp).

Byte strings of the C++ code (std::string) are modelled as `List Nat`
(byte values).  The unordered maps are modelled as functions into
`Option`.  Each packet handler becomes a pure function from server
state and decoded packet fields to a new state together with the list
of outgoing messages.  Time (std::chrono::steady_clock) is passed in
as a natural number of milliseconds.
-/

/-- Finite-map update: `mset m k v` maps `k` to `some v`, else as `m`. -/
def mset {κ : Type} {α : Type} [DecidableEq κ] (m : κ → Option α) (k : κ) (v : α) :
    κ → Option α :=
  fun x => if x = k then some v else m x

/-- Finite-map deletion. -/
def mdel {κ : Type} {α : Type} [DecidableEq κ] (m : κ → Option α) (k : κ) :
    κ → Option α :=
  fun x => if x = k then none else m x

/-- Byte-string literal helper: Lean string to list of code points. -/
def strB (s : String) : List Nat := s.data.map Char.toNat

/-- C `tolower` in the default locale: shift A..Z (65..90) by 32. -/
def toLowerByte (c : Nat) : Nat := if 65 ≤ c ∧ c ≤ 90 then c + 32 else c

/-- C `isalnum` in the default locale: 0-9, A-Z, a-z. -/
def isAlnumByte (c : Nat) : Bool :=
  (48 ≤ c ∧ c ≤ 57) ∨ (65 ≤ c ∧ c ≤ 90) ∨ (97 ≤ c ∧ c ≤ 122)

/-- C `isspace` in the default locale: space, \t, \n, \v, \f, \r. -/
def isSpaceByte (c : Nat) : Bool :=
  c = 32 ∨ c = 9 ∨ c = 10 ∨ c = 11 ∨ c = 12 ∨ c = 13

/-- Models `GameServer::NormalizeNickname`: lowercase every byte. -/
def NormalizeNickname (s : List Nat) : List Nat := s.map toLowerByte

/-- Models `GameServer::IsValidNickname`: length in [3,16], bytes alnum or underscore. -/
def IsValidNickname (s : List Nat) : Bool :=
  if s.length < 3 ∨ 16 < s.length then false
  else s.all (fun c => isAlnumByte c || c = 95)

/-- Models `TrimSpaces` (Chat.cpp): strip leading and trailing whitespace. -/
def TrimSpaces (s : List Nat) : List Nat :=
  ((s.dropWhile isSpaceByte).reverse.dropWhile isSpaceByte).reverse

/-- Leading-match test modelling `rfind(pat, 0) == 0`. -/
def startsWithB : List Nat → List Nat → Bool
  | [], _ => true
  | _ :: _, [] => false
  | p :: ps, t :: ts => p = t && startsWithB ps ts

/-- Decimal digit bytes of a natural number with explicit fuel
(`std::to_string`). -/
def digitsGo : Nat → Nat → List Nat → List Nat
  | 0, _, acc => acc
  | fuel + 1, n, acc =>
      if n < 10 then (48 + n) :: acc
      else digitsGo fuel (n / 10) ((48 + n % 10) :: acc)

/-- Decimal representation of a natural number as bytes (`std::to_string`). -/
def natDigits (n : Nat) : List Nat := digitsGo (n + 1) n []

/-- The default nickname `"Player " + std::to_string(id)`. -/
def DefaultName (id : Nat) : List Nat := strB "Player " ++ natDigits id

/-- Chat message kinds (`ChatMessageType`). -/
inductive ChatType
  | public
  | whisper
  | system
deriving DecidableEq, Repr

/-- Models `NicknameUpdateStatus`. -/
inductive NickStatus
  | accepted
  | invalid
  | conflict
deriving DecidableEq, Repr

/-- Per-client server state (`GameServer::ClientState`).
`INVALID_CLIENT_ID` and `INVALID_NET_OBJECT_ID` and the null `NetUUID`
are all modelled as `0`; transforms are opaque numbers. -/
structure ClientState where
  id : Nat
  connHandle : Nat
  uuid : Nat
  objectID : Nat
  lastTransform : Nat
  hasTransform : Bool
  welcomed : Bool
  nickname : List Nat
  whisperTargetID : Nat
  whisperTargetNickname : List Nat
  lastSeen : Nat
  lastChatTime : Nat
deriving DecidableEq, Repr

/-- Outgoing effects of a handler, one constructor per packet kind the
server emits (plus the forced transport close). -/
inductive Msg
  | welcome (toClient : Nat) (assignedId : Nat)
  | nickResult (toClient : Nat) (status : NickStatus) (nick : List Nat)
  | chat (toClient : Nat) (chatType : ChatType) (senderId : Nat)
      (senderName : List Nat) (text : List Nat)
  | despawn (toClient : Nat) (ownerId : Nat) (objId : Nat)
  | posBroadcast (toClient : Nat) (tick : Nat)
      (entries : List (Nat × Nat × Nat)) (channel : Nat)
  | closeConn (handle : Nat)
deriving DecidableEq, Repr

/-- The recipient session of an outgoing message, when addressed to one. -/
def Msg.recipient : Msg → Option Nat
  | .welcome t _ => some t
  | .nickResult t _ _ => some t
  | .chat t _ _ _ _ => some t
  | .despawn t _ _ => some t
  | .posBroadcast t _ _ _ => some t
  | .closeConn _ => none

/-- The server state (`GameServer` data members). -/
structure GameServer where
  running : Bool
  nextClientID : Nat
  clients : Nat → Option ClientState
  connIndex : Nat → Option Nat
  uuidIndex : Nat → Option Nat
  nicknameIndex : List Nat → Option Nat
  serverTick : Nat

/-- The state right after a successful `Start`: all maps empty,
ids start at 1 (0 is `INVALID_CLIENT_ID`). -/
def initServer : GameServer where
  running := true
  nextClientID := 1
  clients := fun _ => none
  connIndex := fun _ => none
  uuidIndex := fun _ => none
  nicknameIndex := fun _ => none
  serverTick := 0

/-- Models `GameServer::GetClientDisplayName`. -/
def GetClientDisplayName (s : GameServer) (clientID : Nat) : List Nat :=
  match s.clients clientID with
  | none => DefaultName clientID
  | some cs => if cs.nickname = [] then DefaultName clientID else cs.nickname

/-- Models `GameServer::SendTo`: dropped silently when the client id is unknown. -/
def sendTo (s : GameServer) (clientID : Nat) (m : Msg) : List Msg :=
  match s.clients clientID with
  | some _ => [m]
  | none => []

/-- Models `GameServer::SendWelcome`. -/
def SendWelcome (s : GameServer) (clientID : Nat) : List Msg :=
  sendTo s clientID (.welcome clientID clientID)

/-- Models `GameServer::SendNicknameUpdateResult`. -/
def SendNicknameUpdateResult (s : GameServer) (clientID : Nat)
    (status : NickStatus) (nick : List Nat) : List Msg :=
  sendTo s clientID (.nickResult clientID status nick)

/-- Models `GameServer::SendChatTo`. -/
def SendChatTo (s : GameServer) (targetID : Nat) (chatType : ChatType)
    (senderID : Nat) (senderName : List Nat) (text : List Nat) : List Msg :=
  sendTo s targetID (.chat targetID chatType senderID senderName text)

/-- Models `GameServer::BroadcastChat`: deliver to every welcomed session.
The map keys all lie below `nextClientID`, so iteration is modelled
over that range. -/
def BroadcastChat (s : GameServer) (chatType : ChatType) (senderID : Nat)
    (senderName : List Nat) (text : List Nat) : List Msg :=
  ((List.range s.nextClientID).filterMap (fun k =>
      match s.clients k with
      | some cs => if cs.welcomed then some cs.id else none
      | none => none)).flatMap
    (fun cid => sendTo s cid (.chat cid chatType senderID senderName text))

/-- Models `GameServer::SendSystemMessage` (sender is the reserved id 0,
display name "System"). -/
def SendSystemMessage (s : GameServer) (text : List Nat) (targetID : Nat) :
    List Msg :=
  if targetID ≠ 0 then
    sendTo s targetID (.chat targetID .system 0 (strB "System") text)
  else
    BroadcastChat s .system 0 (strB "System") text

/-- Models `GameServer::SendObjectDespawn`. -/
def SendObjectDespawn (s : GameServer) (toClientID ownerClientID objectID : Nat) :
    List Msg :=
  if objectID = 0 then []
  else sendTo s toClientID (.despawn toClientID ownerClientID objectID)

/-- Models `GameServer::HandleNewConnection`: accept, allocate a fresh id,
create an unwelcomed session bound to the handle. -/
def HandleNewConnection (s : GameServer) (conn : Nat) (now : Nat) : GameServer :=
  let newID := s.nextClientID
  { s with
    nextClientID := newID + 1
    clients := mset s.clients newID
      { id := newID, connHandle := conn, uuid := 0, objectID := 0,
        lastTransform := 0, hasTransform := false, welcomed := false,
        nickname := [], whisperTargetID := 0, whisperTargetNickname := [],
        lastSeen := now, lastChatTime := 0 }
    connIndex := mset s.connIndex conn newID }

/-- Models `GameServer::RemoveClient`: notify despawn, drop nickname index
entry, optionally force-close the transport, erase the session and its
handle index entry.  The UUID index entry survives. -/
def RemoveClient (s : GameServer) (clientID : Nat) (closeTransport : Bool) :
    GameServer × List Msg :=
  match s.clients clientID with
  | none => (s, [])
  | some cs =>
    let shouldNotify := cs.welcomed ∧ cs.objectID ≠ 0
    let despawns :=
      if shouldNotify then
        (((List.range s.nextClientID).filterMap (fun k =>
            match s.clients k with
            | some c => if c.welcomed ∧ c.id ≠ cs.id then some c.id else none
            | none => none)).flatMap
          (fun t => SendObjectDespawn s t cs.id cs.objectID))
      else []
    let closeMsgs := if closeTransport then [Msg.closeConn cs.connHandle] else []
    let nickIdx :=
      if cs.nickname ≠ [] then mdel s.nicknameIndex (NormalizeNickname cs.nickname)
      else s.nicknameIndex
    ({ s with
        clients := mdel s.clients clientID
        connIndex := mdel s.connIndex cs.connHandle
        nicknameIndex := nickIdx },
     despawns ++ closeMsgs)

/-- Models `GameServer::HandleClientHello` (Connection.cpp): the reconnection
reconciler.  `uuid = 0` models a null `NetUUID`. -/
def HandleClientHello (s : GameServer) (clientID : Nat) (uuid : Nat)
    (now : Nat) : GameServer × List Msg :=
  match s.clients clientID with
  | none => (s, [])
  | some cs =>
    if cs.welcomed then (s, [])
    else if uuid ≠ 0 then
      match s.uuidIndex uuid with
      | some oldID =>
        -- returning player: migrate the session onto the old id
        let nick := if cs.nickname = [] then DefaultName oldID else cs.nickname
        let moved : ClientState :=
          { cs with
            id := oldID, uuid := uuid, welcomed := true,
            nickname := nick, lastSeen := now }
        let s' : GameServer :=
          { s with
            clients := mset (mdel s.clients clientID) oldID moved
            connIndex := mset s.connIndex moved.connHandle oldID
            nicknameIndex := mset s.nicknameIndex (NormalizeNickname nick) oldID }
        let migrated : GameServer × List Msg :=
          (s', SendWelcome s' oldID ++
               SendNicknameUpdateResult s' oldID .accepted nick)
        match s.clients oldID with
        | some existing =>
          if oldID ≠ clientID ∧ existing.connHandle ≠ cs.connHandle then
            -- duplicate UUID: reject the newer connection, keep the old one
            RemoveClient s clientID true
          else migrated
        | none => migrated
      | none =>
        -- new player: register the UUID, then the common welcome path
        let cs0 : ClientState := { cs with uuid := uuid }
        let nick := if cs0.nickname = [] then DefaultName clientID else cs0.nickname
        let cs' : ClientState :=
          { cs0 with welcomed := true, nickname := nick, lastSeen := now }
        let s' : GameServer :=
          { s with
            clients := mset s.clients clientID cs'
            uuidIndex := mset s.uuidIndex uuid clientID
            nicknameIndex := mset s.nicknameIndex (NormalizeNickname nick) clientID }
        (s', SendWelcome s' clientID ++
             SendNicknameUpdateResult s' clientID .accepted nick)
    else
      -- no UUID supplied: welcome under the temporary id
      let nick := if cs.nickname = [] then DefaultName clientID else cs.nickname
      let cs' : ClientState :=
        { cs with welcomed := true, nickname := nick, lastSeen := now }
      let s' : GameServer :=
        { s with
          clients := mset s.clients clientID cs'
          nicknameIndex := mset s.nicknameIndex (NormalizeNickname nick) clientID }
      (s', SendWelcome s' clientID ++
           SendNicknameUpdateResult s' clientID .accepted nick)

/-- Models `GameServer::HandlePositionUpdate`. -/
def HandlePositionUpdate (s : GameServer) (clientID objectID transform now : Nat) :
    GameServer :=
  match s.clients clientID with
  | none => s
  | some cs =>
    { s with
      clients := mset s.clients clientID
        { cs with
          objectID := objectID, lastTransform := transform,
          hasTransform := true, lastSeen := now } }

/-- Models `GameServer::HandleObjectRelease`: ownership-checked release. -/
def HandleObjectRelease (s : GameServer) (clientID objectID now : Nat) :
    GameServer × List Msg :=
  match s.clients clientID with
  | none => (s, [])
  | some cs =>
    if cs.objectID ≠ objectID then (s, [])
    else
      let msgs :=
        (((List.range s.nextClientID).filterMap (fun k =>
            match s.clients k with
            | some c => if c.welcomed ∧ c.id ≠ clientID then some c.id else none
            | none => none)).flatMap
          (fun t => SendObjectDespawn s t clientID objectID))
      let s' : GameServer :=
        { s with
          clients := mset s.clients clientID
            { cs with
              objectID := 0, hasTransform := false,
              lastTransform := 0, lastSeen := now } }
      (s', msgs)

/-- Models `GameServer::HandleHeartbeat`. -/
def HandleHeartbeat (s : GameServer) (clientID claimedID now : Nat) : GameServer :=
  if claimedID ≠ 0 ∧ claimedID ≠ clientID then s
  else
    match s.clients clientID with
    | none => s
    | some cs =>
      { s with
        clients := mset s.clients clientID { cs with lastSeen := now } }

/-- Models `GameServer::HandleNicknameUpdateRequest` (Chat.cpp). -/
def HandleNicknameUpdateRequest (s : GameServer) (clientID : Nat)
    (requested : List Nat) : GameServer × List Msg :=
  match s.clients clientID with
  | none => (s, [])
  | some cs =>
    if ¬cs.welcomed then (s, [])
    else
      let currentNorm := NormalizeNickname (GetClientDisplayName s clientID)
      let requestedNorm := NormalizeNickname requested
      if requestedNorm = currentNorm then
        -- idempotent update: keep quiet, only acknowledge
        (s, SendNicknameUpdateResult s clientID .accepted
              (GetClientDisplayName s clientID))
      else if ¬IsValidNickname requested then
        (s, SendNicknameUpdateResult s clientID .invalid
              (GetClientDisplayName s clientID))
      else
        let idx0 :=
          if cs.nickname ≠ [] then
            mdel s.nicknameIndex (NormalizeNickname cs.nickname)
          else s.nicknameIndex
        let s' : GameServer :=
          { s with
            clients := mset s.clients clientID { cs with nickname := requested }
            nicknameIndex := mset idx0 requestedNorm clientID }
        let accepted : GameServer × List Msg :=
          (s', SendNicknameUpdateResult s' clientID .accepted requested ++
               SendSystemMessage s'
                 (strB "Your nickname is now \x27" ++ requested ++ strB "\x27.")
                 clientID)
        match s.nicknameIndex requestedNorm with
        | some other =>
          if other ≠ clientID then
            (s, SendNicknameUpdateResult s clientID .conflict
                  (GetClientDisplayName s clientID))
          else accepted
        | none => accepted

/-- Clear whisper mode for a session (`setPublicMode` in Chat.cpp). -/
def setPublicMode (s : GameServer) (clientID : Nat) : GameServer :=
  { s with clients := fun k =>
      if k = clientID then
        (s.clients k).map (fun c =>
          { c with whisperTargetID := 0, whisperTargetNickname := [] })
      else s.clients k }

/-- The static `/help` text. -/
def helpText : List Nat :=
  strB "Available chat commands:\n/w <nickname> - enter whisper mode (supports spaces in nickname).\n/a - return to public chat.\n/help - show this help message."

/-- Models `GameServer::HandleChatRequest` (Chat.cpp): validation pipeline,
rate limiting, command parsing, whisper routing and public broadcast. -/
def HandleChatRequest (s : GameServer) (clientID : Nat) (chatType : ChatType)
    (text : List Nat) (now : Nat) : GameServer × List Msg :=
  match s.clients clientID with
  | none => (s, [])
  | some cs =>
    if ¬cs.welcomed then (s, [])
    else if text.length = 0 ∨ 256 < text.length then (s, [])
    else if now - cs.lastChatTime < 300 then
      (s, SendSystemMessage s (strB "Message rate-limited. Please slow down.") clientID)
    else
      let cs1 : ClientState := { cs with lastChatTime := now }
      let s1 : GameServer := { s with clients := mset s.clients clientID cs1 }
      let senderName := GetClientDisplayName s1 clientID
      if text.head? = some 47 then
        -- command parsing
        if text = strB "/help" then
          (s1, SendSystemMessage s1 helpText clientID)
        else if startsWithB (strB "/a") text ∧ TrimSpaces (text.drop 2) = [] then
          let s2 := setPublicMode s1 clientID
          (s2, SendSystemMessage s2
                 (strB "[CHAT_MODE:PUBLIC] Switched to public chat.") clientID)
        else if text = strB "/w" ∨ startsWithB (strB "/w ") text then
          let targetNickname := TrimSpaces (text.drop 2)
          if targetNickname = [] then
            (s1, SendSystemMessage s1 (strB "Usage: /w <nickname>") clientID)
          else
            let targetNorm := NormalizeNickname targetNickname
            match s1.nicknameIndex targetNorm with
            | none =>
              let s2 := setPublicMode s1 clientID
              (s2, SendSystemMessage s2
                     (strB "[CHAT_MODE:PUBLIC] Player \x27" ++ targetNickname ++
                      strB "\x27 is not online. Switched to public chat.") clientID)
            | some targetID =>
              match s1.clients targetID with
              | none =>
                let s2 := setPublicMode s1 clientID
                (s2, SendSystemMessage s2
                       (strB "[CHAT_MODE:PUBLIC] Player \x27" ++ targetNickname ++
                        strB "\x27 is not online. Switched to public chat.") clientID)
              | some ts =>
                if ¬ts.welcomed then
                  let s2 := setPublicMode s1 clientID
                  (s2, SendSystemMessage s2
                         (strB "[CHAT_MODE:PUBLIC] Player \x27" ++ targetNickname ++
                          strB "\x27 is not online. Switched to public chat.") clientID)
                else
                  let targetDisplayName := GetClientDisplayName s1 targetID
                  let s2 : GameServer :=
                    { s1 with
                      clients := mset s1.clients clientID
                        { cs1 with
                          whisperTargetID := targetID,
                          whisperTargetNickname := targetDisplayName } }
                  (s2, SendSystemMessage s2
                         (strB "[CHAT_MODE:WHISPER:" ++ targetDisplayName ++
                          strB "] Whisper mode on for \x27" ++ targetDisplayName ++
                          strB "\x27. Use /a to return to public chat.") clientID)
        else
          (s1, SendSystemMessage s1
                 (strB "Unknown command. Type /help for commands.") clientID)
      else if cs1.whisperTargetID ≠ 0 then
        -- whisper mode routing
        let targetID := cs1.whisperTargetID
        let targetOk :=
          match s1.clients targetID with
          | some ts => ts.welcomed
          | none => false
        if targetOk then
          let targetDisplayName := GetClientDisplayName s1 targetID
          let s2 : GameServer :=
            { s1 with
              clients := mset s1.clients clientID
                { cs1 with whisperTargetNickname := targetDisplayName } }
          (s2, SendChatTo s2 targetID .whisper clientID senderName text ++
               (if targetID ≠ clientID then
                  SendChatTo s2 clientID .whisper clientID senderName text
                else []))
        else
          let offlineName :=
            if cs1.whisperTargetNickname = [] then strB "selected player"
            else strB "\x27" ++ cs1.whisperTargetNickname ++ strB "\x27"
          let s2 := setPublicMode s1 clientID
          (s2, SendSystemMessage s2
                 (strB "[CHAT_MODE:PUBLIC] Whisper target " ++ offlineName ++
                  strB " is offline. Switched to public chat.") clientID)
      else
        match chatType with
        | .public => (s1, BroadcastChat s1 .public clientID senderName text)
        | .whisper =>
          (s1, SendSystemMessage s1
                 (strB "Use /w <nickname> to enter whisper mode.") clientID)
        | .system => (s1, [])

/-- Models `GameServer::BroadcastPositions` (StateSync.cpp): collect the
entry of every welcomed session with a reported transform; skip the
tick if the collection is empty, else send one aggregate packet,
tagged with the tick, to every welcomed session on the unreliable
channel (modelled as channel 1). -/
def BroadcastPositions (s : GameServer) : List Msg :=
  let entries : List (Nat × Nat × Nat) :=
    (List.range s.nextClientID).filterMap (fun k =>
      match s.clients k with
      | some cs =>
        if cs.welcomed ∧ cs.hasTransform then
          some (cs.id, cs.objectID, cs.lastTransform)
        else none
      | none => none)
  if entries = [] then []
  else
    (List.range s.nextClientID).filterMap (fun k =>
      match s.clients k with
      | some cs =>
        if cs.welcomed then
          some (Msg.posBroadcast cs.id s.serverTick entries 1)
        else none
      | none => none)

/-- The entry collection of `BroadcastPositions`, named for reuse. -/
def broadcastEntries (s : GameServer) : List (Nat × Nat × Nat) :=
  (List.range s.nextClientID).filterMap (fun k =>
    match s.clients k with
    | some cs =>
      if cs.welcomed ∧ cs.hasTransform then
        some (cs.id, cs.objectID, cs.lastTransform)
      else none
    | none => none)

/-- Models `GameServer::Stop` (Lifecycle.cpp): clears the connection index,
the nickname index and the client map.  The UUID index and the id
counter are left as they are. -/
def Stop (s : GameServer) : GameServer :=
  if ¬s.running then s
  else
    { s with
      running := false
      connIndex := fun _ => none
      nicknameIndex := fun _ => none
      clients := fun _ => none }

/-! ### Concrete executions (used by witnesses and counterexamples) -/

/-- A connection arrives on handle 10; it receives temporary id 1. -/
def exA1 : GameServer := HandleNewConnection initServer 10 0

/-- The connection sends a handshake with durable UUID 99: session 1
is welcomed with the default nickname "Player 1". -/
def exA2 : GameServer := (HandleClientHello exA1 1 99 0).1

/-- Session 1 changes its nickname to "Alice_". -/
def exA3 : GameServer := (HandleNicknameUpdateRequest exA2 1 (strB "Alice_")).1

/-- Session 1 disconnects (transport teardown, no forced close). -/
def exA4 : GameServer := (RemoveClient exA3 1 false).1

/-- A new connection arrives on handle 11; it receives temporary id 2. -/
def exA5 : GameServer := HandleNewConnection exA4 11 5

/-- The new connection sends a handshake with the same UUID 99 and is
reconciled back onto id 1. -/
def exA6 : GameServer := (HandleClientHello exA5 2 99 5).1

/-- Session 1 reports a transform for object 7. -/
def exP : GameServer := HandlePositionUpdate exA2 1 7 1234 0

/-- Session 1 then releases object 7. -/
def exR : GameServer := (HandleObjectRelease exP 1 7 0).1

/-- While session 1 is online with UUID 99, a second connection
arrives on handle 12 and receives temporary id 2. -/
def exD : GameServer := HandleNewConnection exA2 12 1

/-- The second connection completes a handshake without a UUID and is
welcomed as "Player 2". -/
def exW2 : GameServer := (HandleClientHello exD 2 0 1).1

/-- Session 1 enters whisper mode targeting "Player 2". -/
def exW3 : GameServer := (HandleChatRequest exW2 1 .public (strB "/w player 2") 1000).1

/-- Session 1 enters whisper mode targeting itself. -/
def exS : GameServer := (HandleChatRequest exA2 1 .public (strB "/w player 1") 1000).1

/-- Invariant maintained by every packet handler: session records carry
their own key as id, all keys are below the id counter, the UUID index
only stores allocated ids, connection handles identify sessions
uniquely, sessions have a nickname exactly when welcomed, the nickname
index knows every welcomed session under its normalized nickname, and
a welcomed nickname is either the default name or a validated one. -/
structure ServerInv (s : GameServer) : Prop where
  keyId : ∀ k cs, s.clients k = some cs → cs.id = k
  keyLt : ∀ k cs, s.clients k = some cs → k < s.nextClientID
  uuidLt : ∀ u j, s.uuidIndex u = some j → j < s.nextClientID
  handleInj : ∀ k1 k2 cs1 cs2, s.clients k1 = some cs1 → s.clients k2 = some cs2 →
      cs1.connHandle = cs2.connHandle → k1 = k2
  noNick : ∀ k cs, s.clients k = some cs → cs.welcomed = false → cs.nickname = []
  nickIdx : ∀ k cs, s.clients k = some cs → cs.welcomed = true →
      cs.nickname ≠ [] ∧ s.nicknameIndex (NormalizeNickname cs.nickname) = some k
  nickForm : ∀ k cs, s.clients k = some cs → cs.welcomed = true →
      cs.nickname = DefaultName k ∨ IsValidNickname cs.nickname = true

/-- States reachable from a fresh server by transport events and packet
handlers.  A new connection always arrives on a handle that no live
session is using (the Transport owns handle liveness). -/
inductive Reachable : GameServer → Prop where
  | init : Reachable initServer
  | newConn {s : GameServer} (conn now : Nat)
      (hfresh : ∀ k cs, s.clients k = some cs → cs.connHandle ≠ conn) :
      Reachable s → Reachable (HandleNewConnection s conn now)
  | hello {s : GameServer} (cid uuid now : Nat) :
      Reachable s → Reachable (HandleClientHello s cid uuid now).1
  | posUpdate {s : GameServer} (cid obj tr now : Nat) :
      Reachable s → Reachable (HandlePositionUpdate s cid obj tr now)
  | objRelease {s : GameServer} (cid obj now : Nat) :
      Reachable s → Reachable (HandleObjectRelease s cid obj now).1
  | heartbeat {s : GameServer} (cid claimed now : Nat) :
      Reachable s → Reachable (HandleHeartbeat s cid claimed now)
  | chat {s : GameServer} (cid : Nat) (ct : ChatType) (text : List Nat) (now : Nat) :
      Reachable s → Reachable (HandleChatRequest s cid ct text now).1
  | nickUpdate {s : GameServer} (cid : Nat) (req : List Nat) :
      Reachable s → Reachable (HandleNicknameUpdateRequest s cid req).1
  | remove {s : GameServer} (cid : Nat) (close : Bool) :
      Reachable s → Reachable (RemoveClient s cid close).1
  | stopped {s : GameServer} : Reachable s → Reachable (Stop s)

/-! ### Facts about decimal digit strings -/

/-- Running `digitsGo` with enough fuel produces the digits of `n`
in front of the accumulator. -/
theorem digitsGo_append (n : Nat) :
    ∀ fuel acc, n < fuel → digitsGo fuel n acc = natDigits n ++ acc := by
  induction n using Nat.strong_induction_on with
  | _ n ih =>
    intro fuel acc hlt
    match fuel with
    | f + 1 =>
      by_cases h10 : n < 10
      · simp [digitsGo, natDigits, h10]
      · have hdiv : n / 10 < n := Nat.div_lt_self (by omega) (by omega)
        have hfu : n / 10 < f := by omega
        have h1 : digitsGo (f + 1) n acc =
            digitsGo f (n / 10) ((48 + n % 10) :: acc) := by
          simp [digitsGo, h10]
        have h2 : natDigits n = digitsGo n (n / 10) [48 + n % 10] := by
          simp [natDigits, digitsGo, h10]
        rw [h1, h2, ih (n / 10) hdiv f _ hfu, ih (n / 10) hdiv n _ hdiv]
        simp

/-- The recurrence satisfied by `natDigits`. -/
theorem natDigits_eq (n : Nat) :
    natDigits n = if n < 10 then [48 + n]
                  else natDigits (n / 10) ++ [48 + n % 10] := by
  by_cases h10 : n < 10
  · simp [natDigits, digitsGo, h10]
  · have hdiv : n / 10 < n := Nat.div_lt_self (by omega) (by omega)
    have h2 : natDigits n = digitsGo n (n / 10) [48 + n % 10] := by
      simp [natDigits, digitsGo, h10]
    rw [h2, digitsGo_append (n / 10) n _ hdiv]
    simp [h10]

/-- Every byte of a decimal representation is an ASCII digit. -/
theorem natDigits_digit (n : Nat) : ∀ d ∈ natDigits n, 48 ≤ d ∧ d ≤ 57 := by
  induction n using Nat.strong_induction_on with
  | _ n ih =>
    intro d hd
    rw [natDigits_eq] at hd
    by_cases h10 : n < 10
    · simp [h10] at hd
      omega
    · have hdiv : n / 10 < n := Nat.div_lt_self (by omega) (by omega)
      simp [h10] at hd
      rcases hd with hd | hd
      · exact ih (n / 10) hdiv d hd
      · have : n % 10 < 10 := Nat.mod_lt _ (by omega)
        omega

/-- A decimal representation is never empty. -/
theorem natDigits_ne_nil (n : Nat) : natDigits n ≠ [] := by
  rw [natDigits_eq]
  by_cases h10 : n < 10 <;> simp [h10]

/-- Decimal representations are injective (`std::to_string`). -/
theorem natDigits_inj : ∀ {a b : Nat}, natDigits a = natDigits b → a = b := by
  intro a
  induction a using Nat.strong_induction_on with
  | _ a ih =>
    intro b h
    rw [natDigits_eq a, natDigits_eq b] at h
    by_cases ha : a < 10 <;> by_cases hb : b < 10
    · simp [ha, hb] at h
      omega
    · simp [ha, hb] at h
      have hlen := congrArg List.length h
      have hpos : 0 < (natDigits (b / 10)).length :=
        List.length_pos.mpr (natDigits_ne_nil _)
      rw [List.length_append] at hlen
      simp only [List.length_singleton] at hlen
      omega
    · simp [ha, hb] at h
      have hlen := congrArg List.length h
      have hpos : 0 < (natDigits (a / 10)).length :=
        List.length_pos.mpr (natDigits_ne_nil _)
      rw [List.length_append] at hlen
      simp only [List.length_singleton] at hlen
      omega
    · simp [ha, hb] at h
      have hlen : ([48 + a % 10] : List Nat).length = ([48 + b % 10] : List Nat).length := by
        simp
      obtain ⟨h1, h2⟩ := List.append_inj' h hlen
      have hdiv : a / 10 < a := Nat.div_lt_self (by omega) (by omega)
      have hq := ih (a / 10) hdiv h1
      simp at h2
      omega

/-- Lowercasing leaves ASCII digits unchanged. -/
theorem toLowerByte_digit {d : Nat} (h : 48 ≤ d ∧ d ≤ 57) : toLowerByte d = d := by
  unfold toLowerByte
  split <;> omega

/-- A list whose bytes are fixed by `toLowerByte` maps to itself. -/
theorem map_toLowerByte_id {l : List Nat} (h : ∀ d ∈ l, toLowerByte d = d) :
    l.map toLowerByte = l := by
  induction l with
  | nil => rfl
  | cons x xs ihx =>
    simp only [List.map_cons]
    rw [h x (by simp), ihx (fun d hd => h d (by simp [hd]))]

/-- Normalizing the default nickname lowercases only the fixed prefix. -/
theorem normalize_defaultName (k : Nat) :
    NormalizeNickname (DefaultName k) = strB "player " ++ natDigits k := by
  unfold NormalizeNickname DefaultName
  rw [List.map_append]
  have h1 : (strB "Player ").map toLowerByte = strB "player " := by decide
  have h2 : (natDigits k).map toLowerByte = natDigits k :=
    map_toLowerByte_id (fun d hd => toLowerByte_digit (natDigits_digit k d hd))
  rw [h1, h2]

/-- Distinct ids have distinct normalized default nicknames. -/
theorem normalize_defaultName_inj {k j : Nat}
    (h : NormalizeNickname (DefaultName k) = NormalizeNickname (DefaultName j)) :
    k = j := by
  rw [normalize_defaultName, normalize_defaultName] at h
  exact natDigits_inj (List.append_cancel_left h)

/-- The space byte occurs in every normalized default nickname. -/
theorem mem_space_normalize_defaultName (k : Nat) :
    32 ∈ NormalizeNickname (DefaultName k) := by
  rw [normalize_defaultName]
  have : 32 ∈ strB "player " := by decide
  exact List.mem_append_left _ this

/-- Bytes of a valid nickname normalize to non-space bytes. -/
theorem normalize_valid_no_space {v : List Nat} (hv : IsValidNickname v = true) :
    32 ∉ NormalizeNickname v := by
  unfold IsValidNickname at hv
  split at hv
  · cases hv
  · intro hmem
    unfold NormalizeNickname at hmem
    obtain ⟨c, hc, hlc⟩ := List.mem_map.mp hmem
    have hgood := List.all_eq_true.mp hv c hc
    simp [isAlnumByte] at hgood
    unfold toLowerByte at hlc
    split at hlc <;> omega

/-- A valid nickname never normalizes to a default nickname. -/
theorem normalize_valid_ne_default {v : List Nat} (hv : IsValidNickname v = true)
    (k : Nat) : NormalizeNickname v ≠ NormalizeNickname (DefaultName k) := by
  intro h
  exact normalize_valid_no_space hv (h ▸ mem_space_normalize_defaultName k)

/-- Every nickname a welcomed session can carry: its default name or a
valid one.  Distinct keys then force distinct normalizations against a
default name. -/
theorem norm_ne_default_of_form {k j : Nat} {nick : List Nat}
    (hform : nick = DefaultName k ∨ IsValidNickname nick = true)
    (hne : k ≠ j) :
    NormalizeNickname nick ≠ NormalizeNickname (DefaultName j) := by
  rcases hform with h | h
  · subst h
    intro hc
    exact hne (normalize_defaultName_inj hc)
  · exact normalize_valid_ne_default h j

/-! ### Map helper lemmas -/

theorem mset_self {κ α : Type} [DecidableEq κ] (m : κ → Option α) (k : κ) (v : α) :
    mset m k v k = some v := by
  simp [mset]

theorem mset_ne {κ α : Type} [DecidableEq κ] (m : κ → Option α) (k : κ) (v : α)
    {x : κ} (h : x ≠ k) : mset m k v x = m x := by
  simp [mset, h]

theorem mdel_self {κ α : Type} [DecidableEq κ] (m : κ → Option α) (k : κ) :
    mdel m k k = none := by
  simp [mdel]

theorem mdel_ne {κ α : Type} [DecidableEq κ] (m : κ → Option α) (k : κ)
    {x : κ} (h : x ≠ k) : mdel m k x = m x := by
  simp [mdel, h]

theorem mset_mset {κ α : Type} [DecidableEq κ] (m : κ → Option α) (k : κ) (v v' : α) :
    mset (mset m k v) k v' = mset m k v' := by
  funext x
  by_cases h : x = k <;> simp [mset, h]

theorem mset_mdel {κ α : Type} [DecidableEq κ] (m : κ → Option α) (k : κ) (v : α) :
    mset (mdel m k) k v = mset m k v := by
  funext x
  by_cases h : x = k <;> simp [mset, mdel, h]

/-! ### The server invariant and reachable states -/

/-- No two welcomed sessions share a normalized nickname (corollary of
the nickname-index component of the invariant). -/
theorem ServerInv.nickUnique {s : GameServer} (hInv : ServerInv s) {k1 k2 : Nat}
    {cs1 cs2 : ClientState} (h1 : s.clients k1 = some cs1)
    (h2 : s.clients k2 = some cs2) (w1 : cs1.welcomed = true)
    (w2 : cs2.welcomed = true)
    (hn : NormalizeNickname cs1.nickname = NormalizeNickname cs2.nickname) :
    k1 = k2 := by
  have e1 := (hInv.nickIdx k1 cs1 h1 w1).2
  have e2 := (hInv.nickIdx k2 cs2 h2 w2).2
  rw [hn, e2] at e1
  exact (Option.some.inj e1).symm

theorem serverInv_init : ServerInv initServer := by
  refine ⟨?_, ?_, ?_, ?_, ?_, ?_, ?_⟩ <;> intros <;> simp_all [initServer]

/-- Updating one existing session without touching its id, handle,
welcome flag or nickname preserves the invariant. -/
theorem ServerInv.updateNoncore {s : GameServer} (hInv : ServerInv s) {cid : Nat}
    {cs cs' : ClientState} (hc : s.clients cid = some cs)
    (hid : cs'.id = cs.id) (hh : cs'.connHandle = cs.connHandle)
    (hw : cs'.welcomed = cs.welcomed) (hn : cs'.nickname = cs.nickname) :
    ServerInv { s with clients := mset s.clients cid cs' } := by
  constructor
  · intro k csx hx
    dsimp only at hx ⊢
    by_cases hk : k = cid
    · subst hk
      rw [mset_self] at hx
      cases hx
      rw [hid]
      exact hInv.keyId _ _ hc
    · rw [mset_ne _ _ _ hk] at hx
      exact hInv.keyId _ _ hx
  · intro k csx hx
    dsimp only at hx ⊢
    by_cases hk : k = cid
    · subst hk
      exact hInv.keyLt _ _ hc
    · rw [mset_ne _ _ _ hk] at hx
      exact hInv.keyLt _ _ hx
  · intro u j hj
    dsimp only at hj ⊢
    exact hInv.uuidLt u j hj
  · intro k1 k2 cs1 cs2 h1 h2 h12
    dsimp only at h1 h2 ⊢
    by_cases hk1 : k1 = cid <;> by_cases hk2 : k2 = cid
    · rw [hk1, hk2]
    · subst hk1
      rw [mset_self] at h1
      cases h1
      rw [mset_ne _ _ _ hk2] at h2
      rw [hh] at h12
      exact hInv.handleInj _ _ _ _ hc h2 h12
    · subst hk2
      rw [mset_self] at h2
      cases h2
      rw [mset_ne _ _ _ hk1] at h1
      rw [hh] at h12
      exact hInv.handleInj _ _ _ _ h1 hc h12
    · rw [mset_ne _ _ _ hk1] at h1
      rw [mset_ne _ _ _ hk2] at h2
      exact hInv.handleInj _ _ _ _ h1 h2 h12
  · intro k csx hx hwx
    dsimp only at hx ⊢
    by_cases hk : k = cid
    · subst hk
      rw [mset_self] at hx
      cases hx
      rw [hn]
      exact hInv.noNick _ _ hc (hw ▸ hwx)
    · rw [mset_ne _ _ _ hk] at hx
      exact hInv.noNick _ _ hx hwx
  · intro k csx hx hwx
    dsimp only at hx ⊢
    by_cases hk : k = cid
    · subst hk
      rw [mset_self] at hx
      cases hx
      rw [hn]
      exact hInv.nickIdx _ _ hc (hw ▸ hwx)
    · rw [mset_ne _ _ _ hk] at hx
      exact hInv.nickIdx _ _ hx hwx
  · intro k csx hx hwx
    dsimp only at hx ⊢
    by_cases hk : k = cid
    · subst hk
      rw [mset_self] at hx
      cases hx
      rw [hn]
      exact hInv.nickForm _ _ hc (hw ▸ hwx)
    · rw [mset_ne _ _ _ hk] at hx
      exact hInv.nickForm _ _ hx hwx

theorem serverInv_stop {s : GameServer} (h : ServerInv s) : ServerInv (Stop s) := by
  unfold Stop
  split
  · exact h
  · constructor
    · intro k cs hx
      simp at hx
    · intro k cs hx
      simp at hx
    · intro u j hj
      dsimp only at hj ⊢
      exact h.uuidLt u j hj
    · intro k1 k2 cs1 cs2 h1 h2 h12
      simp at h1
    · intro k cs hx hwx
      simp at hx
    · intro k cs hx hwx
      simp at hx
    · intro k cs hx hwx
      simp at hx

theorem serverInv_heartbeat {s : GameServer} (h : ServerInv s)
    (cid claimed now : Nat) : ServerInv (HandleHeartbeat s cid claimed now) := by
  unfold HandleHeartbeat
  split
  · exact h
  · split
    · exact h
    · next cs heq => exact h.updateNoncore heq rfl rfl rfl rfl

theorem serverInv_posUpdate {s : GameServer} (h : ServerInv s)
    (cid obj tr now : Nat) : ServerInv (HandlePositionUpdate s cid obj tr now) := by
  unfold HandlePositionUpdate
  split
  · exact h
  · next cs heq => exact h.updateNoncore heq rfl rfl rfl rfl

theorem serverInv_objRelease {s : GameServer} (h : ServerInv s)
    (cid obj now : Nat) : ServerInv (HandleObjectRelease s cid obj now).1 := by
  unfold HandleObjectRelease
  split
  · exact h
  · next cs heq =>
    split
    · exact h
    · exact h.updateNoncore heq rfl rfl rfl rfl

theorem serverInv_newConn {s : GameServer} (hInv : ServerInv s) {conn : Nat}
    (now : Nat) (hfresh : ∀ k cs, s.clients k = some cs → cs.connHandle ≠ conn) :
    ServerInv (HandleNewConnection s conn now) := by
  unfold HandleNewConnection
  constructor
  · intro k csx hx
    dsimp only at hx ⊢
    by_cases hk : k = s.nextClientID
    · subst hk
      rw [mset_self] at hx
      cases hx
      rfl
    · rw [mset_ne _ _ _ hk] at hx
      exact hInv.keyId _ _ hx
  · intro k csx hx
    dsimp only at hx ⊢
    by_cases hk : k = s.nextClientID
    · subst hk
      omega
    · rw [mset_ne _ _ _ hk] at hx
      have := hInv.keyLt _ _ hx
      omega
  · intro u j hj
    dsimp only at hj ⊢
    have := hInv.uuidLt u j hj
    omega
  · intro k1 k2 cs1 cs2 h1 h2 h12
    dsimp only at h1 h2 ⊢
    by_cases hk1 : k1 = s.nextClientID <;> by_cases hk2 : k2 = s.nextClientID
    · rw [hk1, hk2]
    · subst hk1
      rw [mset_self] at h1
      cases h1
      rw [mset_ne _ _ _ hk2] at h2
      dsimp only at h12
      exact absurd h12.symm (hfresh _ _ h2)
    · subst hk2
      rw [mset_self] at h2
      cases h2
      rw [mset_ne _ _ _ hk1] at h1
      dsimp only at h12
      exact absurd h12 (hfresh _ _ h1)
    · rw [mset_ne _ _ _ hk1] at h1
      rw [mset_ne _ _ _ hk2] at h2
      exact hInv.handleInj _ _ _ _ h1 h2 h12
  · intro k csx hx hwx
    dsimp only at hx ⊢
    by_cases hk : k = s.nextClientID
    · subst hk
      rw [mset_self] at hx
      cases hx
      rfl
    · rw [mset_ne _ _ _ hk] at hx
      exact hInv.noNick _ _ hx hwx
  · intro k csx hx hwx
    dsimp only at hx ⊢
    by_cases hk : k = s.nextClientID
    · subst hk
      rw [mset_self] at hx
      cases hx
      cases hwx
    · rw [mset_ne _ _ _ hk] at hx
      exact hInv.nickIdx _ _ hx hwx
  · intro k csx hx hwx
    dsimp only at hx ⊢
    by_cases hk : k = s.nextClientID
    · subst hk
      rw [mset_self] at hx
      cases hx
      cases hwx
    · rw [mset_ne _ _ _ hk] at hx
      exact hInv.nickForm _ _ hx hwx

theorem setPublicMode_eq {s : GameServer} {cid : Nat} {cs : ClientState}
    (hsc : s.clients cid = some cs) :
    setPublicMode s cid =
      { s with
        clients := mset s.clients cid
          { cs with
            whisperTargetID := 0, whisperTargetNickname := [] } } := by
  unfold setPublicMode
  congr 1
  funext k
  by_cases hk : k = cid
  · subst hk
    rw [hsc]
    simp [mset]
  · simp [mset, hk]

/-- An accepted chat submission only stamps the rate limiter and
possibly moves the whisper fields of the sender; every other part of
the server state is untouched. -/
theorem chat_accept_state {s : GameServer} {cid : Nat} {cs : ClientState}
    {text : List Nat} {now : Nat} (ct : ChatType)
    (hsc : s.clients cid = some cs) (hw : cs.welcomed = true)
    (hlen : ¬(text.length = 0 ∨ 256 < text.length))
    (hrl : ¬(now - cs.lastChatTime < 300)) :
    ∃ w wn, (HandleChatRequest s cid ct text now).1 =
      { s with
        clients := mset s.clients cid
          { cs with
            whisperTargetID := w, whisperTargetNickname := wn,
            lastChatTime := now } } := by
  simp only [HandleChatRequest, hsc]
  rw [hw]
  rw [if_neg (by simp), if_neg hlen, if_neg hrl]
  split
  · -- command parsing
    split
    · exact ⟨cs.whisperTargetID, cs.whisperTargetNickname, rfl⟩
    · split
      · rw [setPublicMode_eq (mset_self s.clients cid _)]
        dsimp only
        rw [mset_mset]
        exact ⟨0, [], rfl⟩
      · split
        · split
          · exact ⟨cs.whisperTargetID, cs.whisperTargetNickname, rfl⟩
          · split
            · rw [setPublicMode_eq (mset_self s.clients cid _)]
              dsimp only
              rw [mset_mset]
              exact ⟨0, [], rfl⟩
            · next targetID _ =>
              split
              · rw [setPublicMode_eq (mset_self s.clients cid _)]
                dsimp only
                rw [mset_mset]
                exact ⟨0, [], rfl⟩
              · split
                · rw [setPublicMode_eq (mset_self s.clients cid _)]
                  dsimp only
                  rw [mset_mset]
                  exact ⟨0, [], rfl⟩
                · dsimp only
                  rw [mset_mset]
                  exact ⟨targetID, _, rfl⟩
        · exact ⟨cs.whisperTargetID, cs.whisperTargetNickname, rfl⟩
  · split
    · split
      · dsimp only
        rw [mset_mset]
        exact ⟨cs.whisperTargetID, _, rfl⟩
      · rw [setPublicMode_eq (mset_self s.clients cid _)]
        dsimp only
        rw [mset_mset]
        exact ⟨0, [], rfl⟩
    · split
      · exact ⟨cs.whisperTargetID, cs.whisperTargetNickname, rfl⟩
      · exact ⟨cs.whisperTargetID, cs.whisperTargetNickname, rfl⟩
      · exact ⟨cs.whisperTargetID, cs.whisperTargetNickname, rfl⟩

/-- Every chat submission either leaves the state unchanged or is an
accepted submission from a welcomed session, with the shape given by
`chat_accept_state`. -/
theorem chat_state (s : GameServer) (cid : Nat) (ct : ChatType)
    (text : List Nat) (now : Nat) :
    (HandleChatRequest s cid ct text now).1 = s ∨
    ∃ cs w wn, s.clients cid = some cs ∧ cs.welcomed = true ∧
      (HandleChatRequest s cid ct text now).1 =
      { s with
        clients := mset s.clients cid
          { cs with
            whisperTargetID := w, whisperTargetNickname := wn,
            lastChatTime := now } } := by
  cases hsc : s.clients cid with
  | none =>
    left
    simp only [HandleChatRequest, hsc]
  | some cs =>
    by_cases hw : cs.welcomed = true
    · by_cases hlen : text.length = 0 ∨ 256 < text.length
      · left
        simp only [HandleChatRequest, hsc]
        rw [hw, if_neg (by simp), if_pos hlen]
      · by_cases hrl : now - cs.lastChatTime < 300
        · left
          simp only [HandleChatRequest, hsc]
          rw [hw, if_neg (by simp), if_neg hlen, if_pos hrl]
        · right
          obtain ⟨w, wn, hres⟩ := chat_accept_state ct hsc hw hlen hrl
          exact ⟨cs, w, wn, rfl, hw, hres⟩
    · left
      simp only [HandleChatRequest, hsc]
      rw [if_pos (by simpa using hw)]

theorem serverInv_chat {s : GameServer} (h : ServerInv s) (cid : Nat)
    (ct : ChatType) (text : List Nat) (now : Nat) :
    ServerInv (HandleChatRequest s cid ct text now).1 := by
  rcases chat_state s cid ct text now with heq | ⟨cs, w, wn, hsc, hwel, heq⟩
  · rw [heq]
    exact h
  · rw [heq]
    exact h.updateNoncore hsc rfl rfl rfl rfl

/-- A valid nickname is nonempty. -/
theorem validNickname_ne_nil {v : List Nat} (h : IsValidNickname v = true) :
    v ≠ [] := by
  intro hnil
  subst hnil
  simp [IsValidNickname] at h

/-- A default nickname is nonempty. -/
theorem defaultName_ne_nil (k : Nat) : DefaultName k ≠ [] := by
  simp [DefaultName, strB]

theorem serverInv_remove {s : GameServer} (hInv : ServerInv s) (cid : Nat)
    (close : Bool) : ServerInv (RemoveClient s cid close).1 := by
  unfold RemoveClient
  split
  · exact hInv
  · next cs heq =>
    constructor
    · intro k csx hx
      dsimp only at hx ⊢
      by_cases hk : k = cid
      · subst hk
        rw [mdel_self] at hx
        cases hx
      · rw [mdel_ne _ _ hk] at hx
        exact hInv.keyId _ _ hx
    · intro k csx hx
      dsimp only at hx ⊢
      by_cases hk : k = cid
      · subst hk
        rw [mdel_self] at hx
        cases hx
      · rw [mdel_ne _ _ hk] at hx
        exact hInv.keyLt _ _ hx
    · intro u j hj
      dsimp only at hj ⊢
      exact hInv.uuidLt u j hj
    · intro k1 k2 cs1 cs2 h1 h2 h12
      dsimp only at h1 h2 ⊢
      by_cases hk1 : k1 = cid
      · subst hk1
        rw [mdel_self] at h1
        cases h1
      · by_cases hk2 : k2 = cid
        · subst hk2
          rw [mdel_self] at h2
          cases h2
        · rw [mdel_ne _ _ hk1] at h1
          rw [mdel_ne _ _ hk2] at h2
          exact hInv.handleInj _ _ _ _ h1 h2 h12
    · intro k csx hx hwx
      dsimp only at hx ⊢
      by_cases hk : k = cid
      · subst hk
        rw [mdel_self] at hx
        cases hx
      · rw [mdel_ne _ _ hk] at hx
        exact hInv.noNick _ _ hx hwx
    · intro k csx hx hwx
      dsimp only at hx ⊢
      by_cases hk : k = cid
      · subst hk
        rw [mdel_self] at hx
        cases hx
      · rw [mdel_ne _ _ hk] at hx
        refine ⟨(hInv.nickIdx _ _ hx hwx).1, ?_⟩
        split
        · next hne =>
          -- the removed session was welcomed (it had a nickname)
          have hcw : cs.welcomed = true := by
            cases hcsw : cs.welcomed
            · exact absurd (hInv.noNick _ _ heq hcsw) hne
            · rfl
          have hnn : NormalizeNickname csx.nickname ≠ NormalizeNickname cs.nickname := by
            intro hcontra
            exact hk (hInv.nickUnique hx heq hwx hcw hcontra)
          rw [mdel_ne _ _ hnn]
          exact (hInv.nickIdx _ _ hx hwx).2
        · exact (hInv.nickIdx _ _ hx hwx).2
    · intro k csx hx hwx
      dsimp only at hx ⊢
      by_cases hk : k = cid
      · subst hk
        rw [mdel_self] at hx
        cases hx
      · rw [mdel_ne _ _ hk] at hx
        exact hInv.nickForm _ _ hx hwx

theorem serverInv_nickAccept {s : GameServer} (hInv : ServerInv s) {cid : Nat}
    {cs : ClientState} {req : List Nat} (heq : s.clients cid = some cs)
    (hw : cs.welcomed = true) (hvalid : IsValidNickname req = true)
    (hfree : ∀ k, s.nicknameIndex (NormalizeNickname req) = some k → k = cid) :
    ServerInv
      { s with
        clients := mset s.clients cid { cs with nickname := req }
        nicknameIndex := mset
          (if cs.nickname ≠ [] then
             mdel s.nicknameIndex (NormalizeNickname cs.nickname)
           else s.nicknameIndex)
          (NormalizeNickname req) cid } := by
  have hnin : cs.nickname ≠ [] := (hInv.nickIdx _ _ heq hw).1
  constructor
  · intro k csx hx
    dsimp only at hx ⊢
    by_cases hk : k = cid
    · subst hk
      rw [mset_self] at hx
      cases hx
      exact hInv.keyId _ cs heq
    · rw [mset_ne _ _ _ hk] at hx
      exact hInv.keyId _ _ hx
  · intro k csx hx
    dsimp only at hx ⊢
    by_cases hk : k = cid
    · subst hk
      exact hInv.keyLt _ _ heq
    · rw [mset_ne _ _ _ hk] at hx
      exact hInv.keyLt _ _ hx
  · intro u j hj
    dsimp only at hj ⊢
    exact hInv.uuidLt u j hj
  · intro k1 k2 cs1 cs2 h1 h2 h12
    dsimp only at h1 h2 ⊢
    by_cases hk1 : k1 = cid <;> by_cases hk2 : k2 = cid
    · rw [hk1, hk2]
    · subst hk1
      rw [mset_self] at h1
      cases h1
      rw [mset_ne _ _ _ hk2] at h2
      exact hInv.handleInj _ _ _ _ heq h2 h12
    · subst hk2
      rw [mset_self] at h2
      cases h2
      rw [mset_ne _ _ _ hk1] at h1
      exact hInv.handleInj _ _ _ _ h1 heq h12
    · rw [mset_ne _ _ _ hk1] at h1
      rw [mset_ne _ _ _ hk2] at h2
      exact hInv.handleInj _ _ _ _ h1 h2 h12
  · intro k csx hx hwx
    dsimp only at hx ⊢
    by_cases hk : k = cid
    · subst hk
      rw [mset_self] at hx
      cases hx
      rw [hw] at hwx
      cases hwx
    · rw [mset_ne _ _ _ hk] at hx
      exact hInv.noNick _ _ hx hwx
  · intro k csx hx hwx
    dsimp only at hx ⊢
    by_cases hk : k = cid
    · subst hk
      rw [mset_self] at hx
      cases hx
      exact ⟨validNickname_ne_nil hvalid, mset_self _ _ _⟩
    · rw [mset_ne _ _ _ hk] at hx
      refine ⟨(hInv.nickIdx _ _ hx hwx).1, ?_⟩
      have hne1 : NormalizeNickname csx.nickname ≠ NormalizeNickname req := by
        intro hcontra
        have := (hInv.nickIdx _ _ hx hwx).2
        rw [hcontra] at this
        exact hk (hfree k this)
      rw [mset_ne _ _ _ hne1]
      rw [if_pos hnin]
      have hne2 : NormalizeNickname csx.nickname ≠ NormalizeNickname cs.nickname := by
        intro hcontra
        exact hk (hInv.nickUnique hx heq hwx hw hcontra)
      rw [mdel_ne _ _ hne2]
      exact (hInv.nickIdx _ _ hx hwx).2
  · intro k csx hx hwx
    dsimp only at hx ⊢
    by_cases hk : k = cid
    · subst hk
      rw [mset_self] at hx
      cases hx
      exact Or.inr hvalid
    · rw [mset_ne _ _ _ hk] at hx
      exact hInv.nickForm _ _ hx hwx

theorem serverInv_nickUpdate {s : GameServer} (hInv : ServerInv s) (cid : Nat)
    (req : List Nat) : ServerInv (HandleNicknameUpdateRequest s cid req).1 := by
  unfold HandleNicknameUpdateRequest
  split
  · exact hInv
  · next cs heq =>
    split
    · exact hInv
    · next hwel =>
      have hw : cs.welcomed = true := by
        revert hwel
        cases cs.welcomed <;> simp
      by_cases hidem : NormalizeNickname req =
          NormalizeNickname (GetClientDisplayName s cid)
      · rw [if_pos hidem]
        exact hInv
      · rw [if_neg hidem]
        by_cases hval : IsValidNickname req = true
        · rw [if_neg (not_not_intro hval)]
          cases hidx : s.nicknameIndex (NormalizeNickname req) with
          | none =>
            exact serverInv_nickAccept hInv heq hw hval
              (fun k hk => by
                rw [hidx] at hk
                cases hk)
          | some other =>
            dsimp only
            by_cases hoc : other = cid
            · rw [if_neg (not_not_intro hoc)]
              exact serverInv_nickAccept hInv heq hw hval
                (fun k hk => by
                  rw [hidx] at hk
                  cases hk
                  exact hoc)
            · rw [if_pos hoc]
              exact hInv
        · rw [if_pos (by simpa using hval)]
          exact hInv

/-- Welcoming the session at its own key: the session record becomes
welcomed with the default nickname, the nickname index gains the
corresponding entry, the UUID index may gain an entry pointing at an
allocated id.  The invariant is preserved. -/
theorem serverInv_welcomeAux {s : GameServer} (hInv : ServerInv s) {cid : Nat}
    {cs cs' : ClientState} (heq : s.clients cid = some cs)
    (hid : cs'.id = cid) (hh : cs'.connHandle = cs.connHandle)
    (hw : cs'.welcomed = true) (hn : cs'.nickname = DefaultName cid)
    {uix : Nat → Option Nat} (huix : ∀ u j, uix u = some j → j < s.nextClientID)
    (cx : Nat → Option Nat) (tick : Nat) (run : Bool) :
    ServerInv
      { running := run, nextClientID := s.nextClientID,
        clients := mset s.clients cid cs', connIndex := cx,
        uuidIndex := uix,
        nicknameIndex := mset s.nicknameIndex
          (NormalizeNickname (DefaultName cid)) cid,
        serverTick := tick } := by
  constructor
  · intro k csx hx
    dsimp only at hx ⊢
    by_cases hk : k = cid
    · subst hk
      rw [mset_self] at hx
      cases hx
      exact hid
    · rw [mset_ne _ _ _ hk] at hx
      exact hInv.keyId _ _ hx
  · intro k csx hx
    dsimp only at hx ⊢
    by_cases hk : k = cid
    · subst hk
      exact hInv.keyLt _ cs heq
    · rw [mset_ne _ _ _ hk] at hx
      exact hInv.keyLt _ _ hx
  · intro u j hj
    dsimp only at hj ⊢
    exact huix u j hj
  · intro k1 k2 cs1 cs2 h1 h2 h12
    dsimp only at h1 h2 ⊢
    by_cases hk1 : k1 = cid <;> by_cases hk2 : k2 = cid
    · rw [hk1, hk2]
    · subst hk1
      rw [mset_self] at h1
      cases h1
      rw [mset_ne _ _ _ hk2] at h2
      rw [hh] at h12
      exact hInv.handleInj _ _ _ _ heq h2 h12
    · subst hk2
      rw [mset_self] at h2
      cases h2
      rw [mset_ne _ _ _ hk1] at h1
      rw [hh] at h12
      exact hInv.handleInj _ _ _ _ h1 heq h12
    · rw [mset_ne _ _ _ hk1] at h1
      rw [mset_ne _ _ _ hk2] at h2
      exact hInv.handleInj _ _ _ _ h1 h2 h12
  · intro k csx hx hwx
    dsimp only at hx ⊢
    by_cases hk : k = cid
    · subst hk
      rw [mset_self] at hx
      cases hx
      rw [hw] at hwx
      cases hwx
    · rw [mset_ne _ _ _ hk] at hx
      exact hInv.noNick _ _ hx hwx
  · intro k csx hx hwx
    dsimp only at hx ⊢
    by_cases hk : k = cid
    · subst hk
      rw [mset_self] at hx
      cases hx
      rw [hn]
      exact ⟨defaultName_ne_nil _, mset_self _ _ _⟩
    · rw [mset_ne _ _ _ hk] at hx
      refine ⟨(hInv.nickIdx _ _ hx hwx).1, ?_⟩
      have hne : NormalizeNickname csx.nickname ≠
          NormalizeNickname (DefaultName cid) :=
        norm_ne_default_of_form (hInv.nickForm _ _ hx hwx) hk
      rw [mset_ne _ _ _ hne]
      exact (hInv.nickIdx _ _ hx hwx).2
  · intro k csx hx hwx
    dsimp only at hx ⊢
    by_cases hk : k = cid
    · subst hk
      rw [mset_self] at hx
      cases hx
      exact Or.inl hn
    · rw [mset_ne _ _ _ hk] at hx
      exact hInv.nickForm _ _ hx hwx

/-- Migrating a returning session onto a free old id: the temporary
session is erased, the old id receives the welcomed record with the
default nickname, the nickname index gains the old-id entry.  The
invariant is preserved. -/
theorem serverInv_migrateAux {s : GameServer} (hInv : ServerInv s)
    {cid oldID : Nat} {cs moved : ClientState} (heq : s.clients cid = some cs)
    (hnone : s.clients oldID = none) (hlt : oldID < s.nextClientID)
    (hid : moved.id = oldID) (hh : moved.connHandle = cs.connHandle)
    (hw : moved.welcomed = true) (hn : moved.nickname = DefaultName oldID)
    (cx : Nat → Option Nat) (tick : Nat) (run : Bool) :
    ServerInv
      { running := run, nextClientID := s.nextClientID,
        clients := mset (mdel s.clients cid) oldID moved, connIndex := cx,
        uuidIndex := s.uuidIndex,
        nicknameIndex := mset s.nicknameIndex
          (NormalizeNickname (DefaultName oldID)) oldID,
        serverTick := tick } := by
  have hcidold : cid ≠ oldID := by
    intro hco
    rw [hco, hnone] at heq
    cases heq
  constructor
  · intro k csx hx
    dsimp only at hx ⊢
    by_cases hk : k = oldID
    · subst hk
      rw [mset_self] at hx
      cases hx
      exact hid
    · rw [mset_ne _ _ _ hk] at hx
      by_cases hkc : k = cid
      · subst hkc
        rw [mdel_self] at hx
        cases hx
      · rw [mdel_ne _ _ hkc] at hx
        exact hInv.keyId _ _ hx
  · intro k csx hx
    dsimp only at hx ⊢
    by_cases hk : k = oldID
    · subst hk
      exact hlt
    · rw [mset_ne _ _ _ hk] at hx
      by_cases hkc : k = cid
      · subst hkc
        rw [mdel_self] at hx
        cases hx
      · rw [mdel_ne _ _ hkc] at hx
        exact hInv.keyLt _ _ hx
  · intro u j hj
    dsimp only at hj ⊢
    exact hInv.uuidLt u j hj
  · intro k1 k2 cs1 cs2 h1 h2 h12
    dsimp only at h1 h2 ⊢
    by_cases hk1 : k1 = oldID <;> by_cases hk2 : k2 = oldID
    · rw [hk1, hk2]
    · subst hk1
      rw [mset_self] at h1
      cases h1
      rw [mset_ne _ _ _ hk2] at h2
      by_cases hkc : k2 = cid
      · subst hkc
        rw [mdel_self] at h2
        cases h2
      · rw [mdel_ne _ _ hkc] at h2
        rw [hh] at h12
        exact absurd (hInv.handleInj _ _ _ _ heq h2 h12) (Ne.symm hkc)
    · subst hk2
      rw [mset_self] at h2
      cases h2
      rw [mset_ne _ _ _ hk1] at h1
      by_cases hkc : k1 = cid
      · subst hkc
        rw [mdel_self] at h1
        cases h1
      · rw [mdel_ne _ _ hkc] at h1
        rw [hh] at h12
        exact absurd (hInv.handleInj _ _ _ _ h1 heq h12) hkc
    · rw [mset_ne _ _ _ hk1] at h1
      rw [mset_ne _ _ _ hk2] at h2
      by_cases hkc1 : k1 = cid
      · subst hkc1
        rw [mdel_self] at h1
        cases h1
      · by_cases hkc2 : k2 = cid
        · subst hkc2
          rw [mdel_self] at h2
          cases h2
        · rw [mdel_ne _ _ hkc1] at h1
          rw [mdel_ne _ _ hkc2] at h2
          exact hInv.handleInj _ _ _ _ h1 h2 h12
  · intro k csx hx hwx
    dsimp only at hx ⊢
    by_cases hk : k = oldID
    · subst hk
      rw [mset_self] at hx
      cases hx
      rw [hw] at hwx
      cases hwx
    · rw [mset_ne _ _ _ hk] at hx
      by_cases hkc : k = cid
      · subst hkc
        rw [mdel_self] at hx
        cases hx
      · rw [mdel_ne _ _ hkc] at hx
        exact hInv.noNick _ _ hx hwx
  · intro k csx hx hwx
    dsimp only at hx ⊢
    by_cases hk : k = oldID
    · subst hk
      rw [mset_self] at hx
      cases hx
      rw [hn]
      exact ⟨defaultName_ne_nil _, mset_self _ _ _⟩
    · rw [mset_ne _ _ _ hk] at hx
      by_cases hkc : k = cid
      · subst hkc
        rw [mdel_self] at hx
        cases hx
      · rw [mdel_ne _ _ hkc] at hx
        refine ⟨(hInv.nickIdx _ _ hx hwx).1, ?_⟩
        have hne : NormalizeNickname csx.nickname ≠
            NormalizeNickname (DefaultName oldID) :=
          norm_ne_default_of_form (hInv.nickForm _ _ hx hwx) hk
        rw [mset_ne _ _ _ hne]
        exact (hInv.nickIdx _ _ hx hwx).2
  · intro k csx hx hwx
    dsimp only at hx ⊢
    by_cases hk : k = oldID
    · subst hk
      rw [mset_self] at hx
      cases hx
      exact Or.inl hn
    · rw [mset_ne _ _ _ hk] at hx
      by_cases hkc : k = cid
      · subst hkc
        rw [mdel_self] at hx
        cases hx
      · rw [mdel_ne _ _ hkc] at hx
        exact hInv.nickForm _ _ hx hwx

theorem serverInv_hello {s : GameServer} (hInv : ServerInv s)
    (cid uuid now : Nat) : ServerInv (HandleClientHello s cid uuid now).1 := by
  unfold HandleClientHello
  split
  · exact hInv
  · next cs heq =>
    split
    · exact hInv
    · next hnwel =>
      have hnw : cs.welcomed = false := by
        revert hnwel
        cases cs.welcomed <;> simp
      have hnick : cs.nickname = [] := hInv.noNick _ _ heq hnw
      split
      · next huuid =>
        cases holdid : s.uuidIndex uuid with
        | some oldID =>
          dsimp only
          cases hex : s.clients oldID with
          | some existing =>
            dsimp only
            split
            · exact serverInv_remove hInv cid true
            · next hcond =>
              have hoc : oldID = cid := by
                by_cases h : oldID = cid
                · exact h
                · exact absurd
                    ⟨h, fun hhc => h (hInv.handleInj _ _ _ _ hex heq hhc)⟩
                    hcond
              subst hoc
              rw [mset_mdel]
              refine serverInv_welcomeAux hInv heq ?_ ?_ ?_ ?_
                (fun u j hj => hInv.uuidLt u j hj) _ _ _ <;> rfl
          | none =>
            dsimp only
            refine serverInv_migrateAux hInv heq hex
              (hInv.uuidLt _ _ holdid) ?_ ?_ ?_ ?_ _ _ _ <;> rfl
        | none =>
          dsimp only
          rw [if_pos hnick]
          refine serverInv_welcomeAux hInv heq ?_ ?_ ?_ ?_
            (fun u j hj => ?_) _ _ _
          · exact hInv.keyId cid cs heq
          · rfl
          · rfl
          · rfl
          by_cases hu : u = uuid
          · subst hu
            rw [mset_self] at hj
            cases hj
            exact hInv.keyLt _ _ heq
          · rw [mset_ne _ _ _ hu] at hj
            exact hInv.uuidLt _ _ hj
      · next huuid0 =>
        dsimp only
        refine serverInv_welcomeAux hInv heq ?_ ?_ ?_ ?_
          (fun u j hj => hInv.uuidLt u j hj) _ _ _
        · exact hInv.keyId cid cs heq
        · rfl
        · rfl
        · rfl

/-- Every reachable state satisfies the server invariant. -/
theorem reachable_serverInv {s : GameServer} (h : Reachable s) : ServerInv s := by
  induction h with
  | init => exact serverInv_init
  | newConn conn now hfresh _ ih => exact serverInv_newConn ih now hfresh
  | hello cid uuid now _ ih => exact serverInv_hello ih cid uuid now
  | posUpdate cid obj tr now _ ih => exact serverInv_posUpdate ih cid obj tr now
  | objRelease cid obj now _ ih => exact serverInv_objRelease ih cid obj now
  | heartbeat cid claimed now _ ih => exact serverInv_heartbeat ih cid claimed now
  | chat cid ct text now _ ih => exact serverInv_chat ih cid ct text now
  | nickUpdate cid req _ ih => exact serverInv_nickUpdate ih cid req
  | remove cid close _ ih => exact serverInv_remove ih cid close
  | stopped _ ih => exact serverInv_stop ih

/-! ### Reachability of the concrete executions -/

theorem reachable_exA1 : Reachable exA1 :=
  Reachable.newConn 10 0 (fun k cs h => by simp [initServer] at h) Reachable.init

theorem reachable_exA2 : Reachable exA2 := Reachable.hello 1 99 0 reachable_exA1

theorem reachable_exA3 : Reachable exA3 :=
  Reachable.nickUpdate 1 (strB "Alice_") reachable_exA2

theorem reachable_exA4 : Reachable exA4 := Reachable.remove 1 false reachable_exA3

theorem reachable_exA5 : Reachable exA5 :=
  Reachable.newConn 11 5 (fun k cs h => by
    have hklt := (reachable_serverInv reachable_exA4).keyLt k cs h
    rw [(by decide : exA4.nextClientID = 2)] at hklt
    rcases (by omega : k = 0 ∨ k = 1) with rfl | rfl
    · rw [(by decide : exA4.clients 0 = none)] at h
      cases h
    · rw [(by decide : exA4.clients 1 = none)] at h
      cases h) reachable_exA4

theorem reachable_exA6 : Reachable exA6 := Reachable.hello 2 99 5 reachable_exA5

theorem reachable_exP : Reachable exP := Reachable.posUpdate 1 7 1234 0 reachable_exA2

theorem reachable_exR : Reachable exR := Reachable.objRelease 1 7 0 reachable_exP

theorem reachable_exD : Reachable exD :=
  Reachable.newConn 12 1 (fun k cs h => by
    have hklt := (reachable_serverInv reachable_exA2).keyLt k cs h
    rw [(by decide : exA2.nextClientID = 2)] at hklt
    rcases (by omega : k = 0 ∨ k = 1) with rfl | rfl
    · rw [(by decide : exA2.clients 0 = none)] at h
      cases h
    · rw [(by decide : exA2.clients 1 = some
        { id := 1, connHandle := 10, uuid := 99, objectID := 0,
          lastTransform := 0, hasTransform := false, welcomed := true,
          nickname := strB "Player 1", whisperTargetID := 0,
          whisperTargetNickname := [], lastSeen := 0, lastChatTime := 0 })] at h
      cases h
      decide) reachable_exA2

theorem reachable_exW2 : Reachable exW2 := Reachable.hello 2 0 1 reachable_exD

theorem reachable_exW3 : Reachable exW3 :=
  Reachable.chat 1 .public (strB "/w player 2") 1000 reachable_exW2

theorem reachable_exS : Reachable exS :=
  Reachable.chat 1 .public (strB "/w player 1") 1000 reachable_exA2

/-! ### Claims -/

/-- C3: in every state reachable from the empty server by the handled
operations, no two distinct welcomed sessions in the client map have
equal normalized (lowercased) nicknames. -/
theorem c3_nickname_unique {s : GameServer} (hreach : Reachable s)
    {k1 k2 : Nat} {cs1 cs2 : ClientState}
    (h1 : s.clients k1 = some cs1) (h2 : s.clients k2 = some cs2)
    (w1 : cs1.welcomed = true) (w2 : cs2.welcomed = true)
    (hn : NormalizeNickname cs1.nickname = NormalizeNickname cs2.nickname) :
    k1 = k2 :=
  (reachable_serverInv hreach).nickUnique h1 h2 w1 w2 hn

theorem c3_nickname_unique_witness : (1 : Nat) = 1 := by
  have h1 : exA2.clients 1 = some
      { id := 1, connHandle := 10, uuid := 99, objectID := 0,
        lastTransform := 0, hasTransform := false, welcomed := true,
        nickname := strB "Player 1", whisperTargetID := 0,
        whisperTargetNickname := [], lastSeen := 0, lastChatTime := 0 } := by
    decide
  exact c3_nickname_unique reachable_exA2 h1 h1 (by decide) (by decide) rfl

/-- C4 (as stated) is false: the nickname auto-assigned at handshake is
"Player <id>", which contains a space and therefore fails the
Nickname Directory validity rule, while being nonempty.  The state
below is reachable and its welcomed session violates the claim. -/
theorem c4_default_nickname_counterexample :
    Reachable exA2 ∧
    (exA2.clients 1).map (fun c => (c.welcomed, c.nickname)) =
      some (true, strB "Player 1") ∧
    strB "Player 1" ≠ [] ∧
    IsValidNickname (strB "Player 1") = false :=
  ⟨reachable_exA2, by decide, by decide, by decide⟩

/-- C4 (amended): in every reachable state, every welcomed session has
a nonempty nickname which is either the default name "Player <id>" for
its own id or satisfies the validity rule (length in [3,16], bytes
alphanumeric or underscore). -/
theorem c4_nickname_form_amended {s : GameServer} (hreach : Reachable s)
    {k : Nat} {cs : ClientState} (hc : s.clients k = some cs)
    (hw : cs.welcomed = true) :
    cs.nickname ≠ [] ∧
    (cs.nickname = DefaultName k ∨ IsValidNickname cs.nickname = true) :=
  have hInv := reachable_serverInv hreach
  ⟨(hInv.nickIdx k cs hc hw).1, hInv.nickForm k cs hc hw⟩

theorem c4_nickname_form_amended_witness :
    strB "Player 1" ≠ [] ∧
    (strB "Player 1" = DefaultName 1 ∨ IsValidNickname (strB "Player 1") = true) := by
  have h1 : exA2.clients 1 = some
      { id := 1, connHandle := 10, uuid := 99, objectID := 0,
        lastTransform := 0, hasTransform := false, welcomed := true,
        nickname := strB "Player 1", whisperTargetID := 0,
        whisperTargetNickname := [], lastSeen := 0, lastChatTime := 0 } := by
    decide
  exact c4_nickname_form_amended reachable_exA2 h1 (by decide)

/-- C8: a nickname change request that normalizes equal to the current
display name is acknowledged as Accepted with no state mutation and no
system message or broadcast, regardless of validity. -/
theorem c8_nickname_idempotent {s : GameServer} {cid : Nat} {cs : ClientState}
    {req : List Nat} (hc : s.clients cid = some cs) (hw : cs.welcomed = true)
    (hnorm : NormalizeNickname req =
      NormalizeNickname (GetClientDisplayName s cid)) :
    HandleNicknameUpdateRequest s cid req =
      (s, [Msg.nickResult cid .accepted (GetClientDisplayName s cid)]) := by
  simp only [HandleNicknameUpdateRequest, hc]
  rw [if_neg (not_not_intro hw), if_pos hnorm]
  simp [SendNicknameUpdateResult, sendTo, hc]

theorem c8_nickname_idempotent_witness :
    HandleNicknameUpdateRequest exA2 1 (strB "PLAYER 1") =
      (exA2, [Msg.nickResult 1 .accepted (GetClientDisplayName exA2 1)]) :=
  @c8_nickname_idempotent exA2 1
    { id := 1, connHandle := 10, uuid := 99, objectID := 0,
      lastTransform := 0, hasTransform := false, welcomed := true,
      nickname := strB "Player 1", whisperTargetID := 0,
      whisperTargetNickname := [], lastSeen := 0, lastChatTime := 0 }
    (strB "PLAYER 1") (by decide) (by decide) (by decide)

/-- C9 (as stated) is false: `Stop` clears the client map, the handle
index and the nickname index, but the UUID-to-id index is left intact
(by design, so returning players stay recognisable).  In the reachable
state below, the UUID entry survives `Stop`. -/
theorem c9_stop_uuid_counterexample :
    exA2.running = true ∧
    exA2.uuidIndex 99 = some 1 ∧
    (Stop exA2).clients 1 = none ∧
    (Stop exA2).uuidIndex 99 = some 1 := by
  refine ⟨by decide, by decide, ?_, ?_⟩ <;> decide

/-- C9 (amended): after `Stop` on a running server, the client map,
the connection-handle index and the nickname index are empty, the
server is no longer running, and the UUID-to-id index is retained
unchanged. -/
theorem c9_stop_amended (s : GameServer) (hrun : s.running = true) :
    (∀ k, (Stop s).clients k = none) ∧
    (∀ h, (Stop s).connIndex h = none) ∧
    (∀ n, (Stop s).nicknameIndex n = none) ∧
    (Stop s).uuidIndex = s.uuidIndex ∧
    (Stop s).running = false := by
  unfold Stop
  rw [if_neg (not_not_intro hrun)]
  exact ⟨fun _ => rfl, fun _ => rfl, fun _ => rfl, rfl, rfl⟩

theorem c9_stop_amended_witness :
    (∀ k, (Stop exA2).clients k = none) ∧
    (∀ h, (Stop exA2).connIndex h = none) ∧
    (∀ n, (Stop exA2).nicknameIndex n = none) ∧
    (Stop exA2).uuidIndex = exA2.uuidIndex ∧
    (Stop exA2).running = false :=
  c9_stop_amended exA2 (by decide)

/-- C1 (as stated) is false in its nickname part: after a disconnect
the session record — including the nickname — is destroyed, only the
UUID-to-id entry survives.  In the run below, session 1 is "Alice_"
before disconnecting, yet after reconnecting with the same UUID the
restored session id 1 carries the default nickname "Player 1". -/
theorem c1_reconnect_nickname_counterexample :
    Reachable exA6 ∧
    (exA3.clients 1).map (fun c => c.nickname) = some (strB "Alice_") ∧
    exA4.clients 1 = none ∧
    exA4.uuidIndex 99 = some 1 ∧
    (exA6.clients 1).map (fun c => (c.welcomed, c.nickname)) =
      some (true, strB "Player 1") ∧
    strB "Player 1" ≠ strB "Alice_" :=
  ⟨reachable_exA6, by decide, by decide, by decide, by decide, by decide⟩

/-- C1 (amended): when a handshake carries a non-null UUID whose
recorded id A is not currently online, the incoming session is
re-keyed to A, welcomed, the handle index is re-pointed to A and the
nickname index gains the entry for A — but the nickname is the default
"Player A", not the nickname the player had before disconnecting. -/
theorem c1_reconnect_identity_amended {s : GameServer} {T A u now : Nat}
    {ts : ClientState} (hT : s.clients T = some ts)
    (hTw : ts.welcomed = false) (hTn : ts.nickname = [])
    (hu : u ≠ 0) (hidx : s.uuidIndex u = some A) (hA : s.clients A = none) :
    (HandleClientHello s T u now).1.clients A =
      some { ts with
             id := A, uuid := u, welcomed := true,
             nickname := DefaultName A, lastSeen := now } ∧
    (HandleClientHello s T u now).1.clients T = none ∧
    (HandleClientHello s T u now).1.connIndex ts.connHandle = some A ∧
    (HandleClientHello s T u now).1.nicknameIndex
      (NormalizeNickname (DefaultName A)) = some A ∧
    (HandleClientHello s T u now).2 =
      [Msg.welcome A A, Msg.nickResult A .accepted (DefaultName A)] := by
  have hAT : A ≠ T := fun h => by
    rw [h, hT] at hA
    cases hA
  simp only [HandleClientHello, hT]
  rw [hTw]
  rw [if_neg (by simp), if_pos hu]
  simp only [hidx, hA]
  rw [if_pos hTn]
  refine ⟨mset_self _ _ _, ?_, mset_self _ _ _, mset_self _ _ _, ?_⟩
  · rw [mset_ne _ _ _ (Ne.symm hAT)]
    exact mdel_self _ _
  · simp [SendWelcome, SendNicknameUpdateResult, sendTo, mset]

theorem c1_reconnect_identity_amended_witness :
    (HandleClientHello exA5 2 99 5).1.clients 1 =
      some { id := 1, connHandle := 11, uuid := 99, objectID := 0,
             lastTransform := 0, hasTransform := false, welcomed := true,
             nickname := DefaultName 1, whisperTargetID := 0,
             whisperTargetNickname := [], lastSeen := 5, lastChatTime := 0 } ∧
    (HandleClientHello exA5 2 99 5).1.clients 2 = none ∧
    (HandleClientHello exA5 2 99 5).1.connIndex 11 = some 1 ∧
    (HandleClientHello exA5 2 99 5).1.nicknameIndex
      (NormalizeNickname (DefaultName 1)) = some 1 ∧
    (HandleClientHello exA5 2 99 5).2 =
      [Msg.welcome 1 1, Msg.nickResult 1 .accepted (DefaultName 1)] :=
  @c1_reconnect_identity_amended exA5 2 1 99 5
    { id := 2, connHandle := 11, uuid := 0, objectID := 0,
      lastTransform := 0, hasTransform := false, welcomed := false,
      nickname := [], whisperTargetID := 0, whisperTargetNickname := [],
      lastSeen := 5, lastChatTime := 0 }
    (by decide) (by decide) (by decide) (by decide) (by decide) (by decide)

/-- C2: while UUID u is online under id A on one handle, a handshake
carrying u on a different connection removes only the incoming
temporary session with a forced transport close; the online session
and all indices except the incoming session's own entries are
untouched. -/
theorem c2_duplicate_uuid_rejected {s : GameServer} {A T u now : Nat}
    {as ts : ClientState}
    (hA : s.clients A = some as) (_hAw : as.welcomed = true)
    (hidx : s.uuidIndex u = some A) (hu : u ≠ 0)
    (hT : s.clients T = some ts) (hTw : ts.welcomed = false)
    (hTn : ts.nickname = []) (hTA : T ≠ A)
    (hhandles : ts.connHandle ≠ as.connHandle) :
    (HandleClientHello s T u now).1.clients A = some as ∧
    (HandleClientHello s T u now).1.clients T = none ∧
    (∀ k, k ≠ T → (HandleClientHello s T u now).1.clients k = s.clients k) ∧
    (HandleClientHello s T u now).1.connIndex ts.connHandle = none ∧
    (∀ h, h ≠ ts.connHandle →
      (HandleClientHello s T u now).1.connIndex h = s.connIndex h) ∧
    (HandleClientHello s T u now).1.nicknameIndex = s.nicknameIndex ∧
    (HandleClientHello s T u now).1.uuidIndex = s.uuidIndex ∧
    (HandleClientHello s T u now).2 = [Msg.closeConn ts.connHandle] := by
  simp only [HandleClientHello, hT]
  rw [hTw]
  rw [if_neg (by simp), if_pos hu]
  simp only [hidx, hA]
  rw [if_pos ⟨Ne.symm hTA, Ne.symm hhandles⟩]
  simp only [RemoveClient, hT]
  have hnotify : ¬(ts.welcomed = true ∧ ts.objectID ≠ 0) := by
    rw [hTw]
    simp
  rw [if_neg (not_not_intro hTn), if_neg hnotify]
  refine ⟨?_, ?_, ?_, ?_, ?_, ?_, ?_, ?_⟩
  · rw [mdel_ne _ _ (Ne.symm hTA)]
    exact hA
  · exact mdel_self _ _
  · intro k hk
    rw [mdel_ne _ _ hk]
  · exact mdel_self _ _
  · intro h hh
    rw [mdel_ne _ _ hh]
  · trivial
  · trivial
  · simp

theorem c2_duplicate_uuid_rejected_witness :
    (HandleClientHello exD 2 99 1).1.clients 1 =
      some { id := 1, connHandle := 10, uuid := 99, objectID := 0,
             lastTransform := 0, hasTransform := false, welcomed := true,
             nickname := strB "Player 1", whisperTargetID := 0,
             whisperTargetNickname := [], lastSeen := 0, lastChatTime := 0 } ∧
    (HandleClientHello exD 2 99 1).1.clients 2 = none ∧
    (∀ k, k ≠ 2 → (HandleClientHello exD 2 99 1).1.clients k = exD.clients k) ∧
    (HandleClientHello exD 2 99 1).1.connIndex 12 = none ∧
    (∀ h, h ≠ 12 →
      (HandleClientHello exD 2 99 1).1.connIndex h = exD.connIndex h) ∧
    (HandleClientHello exD 2 99 1).1.nicknameIndex = exD.nicknameIndex ∧
    (HandleClientHello exD 2 99 1).1.uuidIndex = exD.uuidIndex ∧
    (HandleClientHello exD 2 99 1).2 = [Msg.closeConn 12] :=
  @c2_duplicate_uuid_rejected exD 1 2 99 1
    { id := 1, connHandle := 10, uuid := 99, objectID := 0,
      lastTransform := 0, hasTransform := false, welcomed := true,
      nickname := strB "Player 1", whisperTargetID := 0,
      whisperTargetNickname := [], lastSeen := 0, lastChatTime := 0 }
    { id := 2, connHandle := 12, uuid := 0, objectID := 0,
      lastTransform := 0, hasTransform := false, welcomed := false,
      nickname := [], whisperTargetID := 0, whisperTargetNickname := [],
      lastSeen := 1, lastChatTime := 0 }
    (by decide) (by decide) (by decide) (by decide) (by decide) (by decide)
    (by decide) (by decide) (by decide)

/-- A rate-limited chat submission: the state is unchanged and the
only reply is the rate-limit system message to the sender. -/
theorem chat_ratelimited_eval {s : GameServer} {cid : Nat} {cs : ClientState}
    {text : List Nat} {now : Nat} (ct : ChatType) (hcid : cid ≠ 0)
    (hc : s.clients cid = some cs) (hw : cs.welcomed = true)
    (hlen : ¬(text.length = 0 ∨ 256 < text.length))
    (hrl : now - cs.lastChatTime < 300) :
    HandleChatRequest s cid ct text now =
      (s, [Msg.chat cid .system 0 (strB "System")
             (strB "Message rate-limited. Please slow down.")]) := by
  simp only [HandleChatRequest, hc]
  rw [hw]
  rw [if_neg (by simp), if_neg hlen, if_pos hrl]
  simp [SendSystemMessage, sendTo, hc, hcid]

/-- C6: after an accepted submission at time t1, a second submission
less than 300 ms later is rejected with the rate-limit system message,
changes nothing, and leaves the limiter timestamp at t1. -/
theorem c6_rate_limit {s : GameServer} {cid : Nat} {cs : ClientState}
    {t1 t2 : Nat} {ct1 ct2 : ChatType} {text1 text2 : List Nat}
    (hcid : cid ≠ 0)
    (hc : s.clients cid = some cs) (hw : cs.welcomed = true)
    (hl1 : ¬(text1.length = 0 ∨ 256 < text1.length))
    (hl2 : ¬(text2.length = 0 ∨ 256 < text2.length))
    (hfirst : ¬(t1 - cs.lastChatTime < 300))
    (hgap : t2 - t1 < 300) :
    (HandleChatRequest (HandleChatRequest s cid ct1 text1 t1).1
        cid ct2 text2 t2).1 = (HandleChatRequest s cid ct1 text1 t1).1 ∧
    (HandleChatRequest (HandleChatRequest s cid ct1 text1 t1).1
        cid ct2 text2 t2).2 =
      [Msg.chat cid .system 0 (strB "System")
         (strB "Message rate-limited. Please slow down.")] ∧
    ∃ cs1, (HandleChatRequest s cid ct1 text1 t1).1.clients cid = some cs1 ∧
      cs1.lastChatTime = t1 := by
  obtain ⟨w, wn, h1⟩ := chat_accept_state ct1 hc hw hl1 hfirst
  have h2 : (HandleChatRequest s cid ct1 text1 t1).1.clients cid =
      some { cs with
             whisperTargetID := w, whisperTargetNickname := wn,
             lastChatTime := t1 } := by
    rw [h1]
    exact mset_self _ _ _
  have h3 := chat_ratelimited_eval ct2 hcid h2 hw hl2
    (show t2 - t1 < 300 from hgap)
  rw [h3]
  exact ⟨rfl, rfl, _, h2, rfl⟩

theorem c6_rate_limit_witness :
    (HandleChatRequest (HandleChatRequest exA2 1 .public (strB "hi") 1000).1
        1 .public (strB "again") 1100).1 =
      (HandleChatRequest exA2 1 .public (strB "hi") 1000).1 ∧
    (HandleChatRequest (HandleChatRequest exA2 1 .public (strB "hi") 1000).1
        1 .public (strB "again") 1100).2 =
      [Msg.chat 1 .system 0 (strB "System")
         (strB "Message rate-limited. Please slow down.")] ∧
    ∃ cs1, (HandleChatRequest exA2 1 .public (strB "hi") 1000).1.clients 1 =
        some cs1 ∧ cs1.lastChatTime = 1000 :=
  @c6_rate_limit exA2 1
    { id := 1, connHandle := 10, uuid := 99, objectID := 0,
      lastTransform := 0, hasTransform := false, welcomed := true,
      nickname := strB "Player 1", whisperTargetID := 0,
      whisperTargetNickname := [], lastSeen := 0, lastChatTime := 0 }
    1000 1100 .public .public (strB "hi") (strB "again")
    (by decide) (by decide) (by decide) (by decide) (by decide)
    (by decide) (by decide)

/-- C5 (as stated) is false in its "ever reported" part: releasing an
object clears the transform-presence flag, so a welcomed session that
reported a transform and then released its object contributes no entry
— and when no session contributes, no packet is sent at all, although
a session had "ever reported a transform". -/
theorem c5_ever_reported_counterexample :
    Reachable exR ∧
    (exP.clients 1).map (fun c => (c.welcomed, c.hasTransform)) =
      some (true, true) ∧
    BroadcastPositions exP = [Msg.posBroadcast 1 0 [(1, 7, 1234)] 1] ∧
    (exR.clients 1).map (fun c => c.welcomed) = some true ∧
    broadcastEntries exR = [] ∧
    BroadcastPositions exR = [] :=
  ⟨reachable_exR, by decide, by decide, by decide, by decide, by decide⟩

/-- C5 (amended): the per-tick collection contains exactly one entry
(sessionId, objectId, transform) for each welcomed session whose
transform-presence flag is set (reported and not since released); if
the collection is empty no packet is sent, and otherwise the one
aggregate packet, tagged with the tick counter, goes on the unreliable
channel (1) to every welcomed session including non-contributors. -/
theorem c5_broadcast_amended (s : GameServer) (hInv : ServerInv s) :
    (∀ e, e ∈ broadcastEntries s ↔
      ∃ k cs, s.clients k = some cs ∧ cs.welcomed = true ∧
        cs.hasTransform = true ∧ e = (cs.id, cs.objectID, cs.lastTransform)) ∧
    ((broadcastEntries s).map (fun e => e.1)).Nodup ∧
    (broadcastEntries s = [] → BroadcastPositions s = []) ∧
    (broadcastEntries s ≠ [] → ∀ m, m ∈ BroadcastPositions s ↔
      ∃ k cs, s.clients k = some cs ∧ cs.welcomed = true ∧
        m = Msg.posBroadcast cs.id s.serverTick (broadcastEntries s) 1) := by
  refine ⟨?_, ?_, ?_, ?_⟩
  · intro e
    constructor
    · intro he
      simp only [broadcastEntries, List.mem_filterMap, List.mem_range] at he
      obtain ⟨a, _, hfa⟩ := he
      cases hca : s.clients a with
      | none =>
        rw [hca] at hfa
        cases hfa
      | some cs =>
        rw [hca] at hfa
        dsimp only at hfa
        by_cases hcond : cs.welcomed = true ∧ cs.hasTransform = true
        · rw [if_pos hcond] at hfa
          exact ⟨a, cs, hca, hcond.1, hcond.2, (Option.some.inj hfa).symm⟩
        · rw [if_neg hcond] at hfa
          cases hfa
    · rintro ⟨k, cs, hck, hw, ht, rfl⟩
      simp only [broadcastEntries, List.mem_filterMap, List.mem_range]
      refine ⟨k, hInv.keyLt _ _ hck, ?_⟩
      rw [hck]
      dsimp only
      rw [if_pos ⟨hw, ht⟩]
  · rw [broadcastEntries, List.map_filterMap]
    refine List.Nodup.filterMap ?_ (List.nodup_range _)
    intro a a' b hb hb'
    rw [Option.mem_def] at hb hb'
    have key : ∀ c, ((match s.clients c with
        | some cs => if cs.welcomed = true ∧ cs.hasTransform = true then
            some (cs.id, cs.objectID, cs.lastTransform) else none
        | none => none).map (fun e : Nat × Nat × Nat => e.1)) = some b →
        b = c := by
      intro c hc
      cases hcc : s.clients c with
      | none =>
        rw [hcc] at hc
        cases hc
      | some cs =>
        rw [hcc] at hc
        dsimp only at hc
        by_cases hcond : cs.welcomed = true ∧ cs.hasTransform = true
        · rw [if_pos hcond] at hc
          simp at hc
          rw [← hc]
          exact hInv.keyId _ _ hcc
        · rw [if_neg hcond] at hc
          cases hc
    exact (key a hb).symm.trans (key a' hb')
  · intro h
    rw [broadcastEntries] at h
    simp only [BroadcastPositions]
    rw [if_pos h]
  · intro hne m
    rw [broadcastEntries] at hne
    simp only [BroadcastPositions, broadcastEntries]
    rw [if_neg hne]
    constructor
    · intro hm
      simp only [List.mem_filterMap, List.mem_range] at hm
      obtain ⟨a, _, hfa⟩ := hm
      cases hca : s.clients a with
      | none =>
        rw [hca] at hfa
        cases hfa
      | some cs =>
        rw [hca] at hfa
        dsimp only at hfa
        by_cases hw : cs.welcomed = true
        · rw [if_pos hw] at hfa
          exact ⟨a, cs, hca, hw, (Option.some.inj hfa).symm⟩
        · rw [if_neg hw] at hfa
          cases hfa
    · rintro ⟨k, cs, hck, hw, rfl⟩
      simp only [List.mem_filterMap, List.mem_range]
      refine ⟨k, hInv.keyLt _ _ hck, ?_⟩
      rw [hck]
      dsimp only
      rw [if_pos hw]

theorem c5_broadcast_amended_witness :
    ((broadcastEntries exP).map (fun e => e.1)).Nodup :=
  (c5_broadcast_amended exP (reachable_serverInv reachable_exP)).2.1

theorem displayName_update_self {s : GameServer} {cid : Nat}
    {cs cs' : ClientState} (hc : s.clients cid = some cs)
    (hn : cs'.nickname = cs.nickname) :
    GetClientDisplayName { s with clients := mset s.clients cid cs' } cid =
      GetClientDisplayName s cid := by
  unfold GetClientDisplayName
  rw [show ({ s with clients := mset s.clients cid cs' } : GameServer).clients cid
        = some cs' from mset_self _ _ _, hc]
  dsimp only
  rw [hn]

theorem displayName_update_other {s : GameServer} {cid t : Nat}
    {cs' : ClientState} (ht : t ≠ cid) :
    GetClientDisplayName { s with clients := mset s.clients cid cs' } t =
      GetClientDisplayName s t := by
  unfold GetClientDisplayName
  rw [show ({ s with clients := mset s.clients cid cs' } : GameServer).clients t
        = s.clients t from mset_ne _ _ _ ht]

/-- Whisper-mode delivery with an online, welcomed target: the text
goes to the target and is echoed to the sender when the two differ;
only the limiter stamp and the cached target name change. -/
theorem chat_whisper_ok_eval {s : GameServer} {cid : Nat} {cs ts : ClientState}
    {text : List Nat} {now : Nat} (ct : ChatType)
    (hc : s.clients cid = some cs) (hw : cs.welcomed = true)
    (hlen : ¬(text.length = 0 ∨ 256 < text.length))
    (hrl : ¬(now - cs.lastChatTime < 300))
    (hnc : ¬(text.head? = some 47))
    (htid : cs.whisperTargetID ≠ 0)
    (hts : s.clients cs.whisperTargetID = some ts) (htw : ts.welcomed = true) :
    HandleChatRequest s cid ct text now =
      ({ s with
         clients := mset s.clients cid
           { cs with
             whisperTargetNickname := GetClientDisplayName s cs.whisperTargetID,
             lastChatTime := now } },
       Msg.chat cs.whisperTargetID .whisper cid (GetClientDisplayName s cid) text ::
       (if cs.whisperTargetID ≠ cid then
          [Msg.chat cid .whisper cid (GetClientDisplayName s cid) text]
        else [])) := by
  simp only [HandleChatRequest, hc]
  rw [hw]
  rw [if_neg (by simp), if_neg hlen, if_neg hrl, if_neg hnc]
  rw [if_pos htid]
  by_cases htc : cs.whisperTargetID = cid
  · have hcs : ts = cs := by
      rw [htc, hc] at hts
      exact (Option.some.inj hts).symm
    subst hcs
    rw [htc]
    rw [mset_self]
    dsimp only
    rw [if_pos rfl]
    have hdn := @displayName_update_self s cid ts
      { ts with welcomed := true, whisperTargetID := cid, lastChatTime := now }
      hc rfl
    rw [hdn, mset_mset]
    rw [if_neg (not_not_intro rfl)]
    simp [SendChatTo, sendTo, mset]
  · rw [mset_ne _ _ _ htc, hts]
    dsimp only
    rw [htw]
    rw [if_pos rfl]
    have hdn := @displayName_update_self s cid cs
      { cs with welcomed := true, lastChatTime := now } hc rfl
    have hdt := @displayName_update_other s cid cs.whisperTargetID
      { cs with welcomed := true, lastChatTime := now } htc
    rw [hdn, hdt, mset_mset]
    rw [if_pos htc]
    simp [SendChatTo, sendTo, mset, htc, hts]

/-- Whisper-mode delivery whose target is gone or not welcomed: the
sender falls back to Public mode, receives one explanatory system
message, and the text is delivered to nobody. -/
theorem chat_whisper_offline_eval {s : GameServer} {cid : Nat}
    {cs : ClientState} {text : List Nat} {now : Nat} (ct : ChatType)
    (hcid : cid ≠ 0)
    (hc : s.clients cid = some cs) (hw : cs.welcomed = true)
    (hlen : ¬(text.length = 0 ∨ 256 < text.length))
    (hrl : ¬(now - cs.lastChatTime < 300))
    (hnc : ¬(text.head? = some 47))
    (htid : cs.whisperTargetID ≠ 0)
    (hoff : ∀ ts, s.clients cs.whisperTargetID = some ts →
      ts.welcomed = false) :
    HandleChatRequest s cid ct text now =
      ({ s with
         clients := mset s.clients cid
           { cs with
             whisperTargetID := 0, whisperTargetNickname := [],
             lastChatTime := now } },
       [Msg.chat cid .system 0 (strB "System")
          (strB "[CHAT_MODE:PUBLIC] Whisper target " ++
           (if cs.whisperTargetNickname = [] then strB "selected player"
            else strB "\x27" ++ cs.whisperTargetNickname ++ strB "\x27") ++
           strB " is offline. Switched to public chat.")]) := by
  have htc : cs.whisperTargetID ≠ cid := by
    intro h
    have hbad := hoff cs (by rw [h]; exact hc)
    rw [hw] at hbad
    cases hbad
  simp only [HandleChatRequest, hc]
  rw [hw]
  rw [if_neg (by simp), if_neg hlen, if_neg hrl, if_neg hnc]
  rw [if_pos htid]
  rw [mset_ne _ _ _ htc]
  cases hts : s.clients cs.whisperTargetID with
  | none =>
    dsimp only
    rw [if_neg (by simp)]
    rw [setPublicMode_eq (mset_self s.clients cid _)]
    dsimp only
    rw [mset_mset]
    simp [SendSystemMessage, sendTo, mset, hcid]
  | some ts =>
    dsimp only
    rw [hoff ts hts]
    rw [if_neg (by simp)]
    rw [setPublicMode_eq (mset_self s.clients cid _)]
    dsimp only
    rw [mset_mset]
    simp [SendSystemMessage, sendTo, mset, hcid]

/-- C7: a non-command submission from a welcomed session in whisper
mode is delivered only to the sender and to the whisper target,
whatever chatType it declares; with the target online and welcomed the
text goes to the target plus an echo to the sender, and with the
target gone or unwelcomed the sender is switched to Public mode with
one explanatory system message and the text reaches nobody. -/
theorem c7_whisper_isolation {s : GameServer} {cid : Nat} {cs : ClientState}
    {ct : ChatType} {text : List Nat} {now : Nat}
    (hcid : cid ≠ 0)
    (hc : s.clients cid = some cs) (hw : cs.welcomed = true)
    (htid : cs.whisperTargetID ≠ 0)
    (hlen : ¬(text.length = 0 ∨ 256 < text.length))
    (hrl : ¬(now - cs.lastChatTime < 300))
    (hnc : ¬(text.head? = some 47)) :
    (∀ m ∈ (HandleChatRequest s cid ct text now).2,
      m.recipient = some cid ∨ m.recipient = some cs.whisperTargetID) ∧
    (∀ ts, s.clients cs.whisperTargetID = some ts → ts.welcomed = true →
      (HandleChatRequest s cid ct text now).2 =
        Msg.chat cs.whisperTargetID .whisper cid
          (GetClientDisplayName s cid) text ::
        (if cs.whisperTargetID ≠ cid then
           [Msg.chat cid .whisper cid (GetClientDisplayName s cid) text]
         else [])) ∧
    ((∀ ts, s.clients cs.whisperTargetID = some ts → ts.welcomed = false) →
      (HandleChatRequest s cid ct text now).2 =
        [Msg.chat cid .system 0 (strB "System")
           (strB "[CHAT_MODE:PUBLIC] Whisper target " ++
            (if cs.whisperTargetNickname = [] then strB "selected player"
             else strB "\x27" ++ cs.whisperTargetNickname ++ strB "\x27") ++
            strB " is offline. Switched to public chat.")] ∧
      (HandleChatRequest s cid ct text now).1.clients cid =
        some { cs with
               whisperTargetID := 0, whisperTargetNickname := [],
               lastChatTime := now }) := by
  cases hts : s.clients cs.whisperTargetID with
  | none =>
    have hoff : ∀ ts, s.clients cs.whisperTargetID = some ts →
        ts.welcomed = false := by
      intro ts h
      rw [hts] at h
      cases h
    have heval := chat_whisper_offline_eval ct hcid hc hw hlen hrl hnc htid hoff
    rw [heval]
    refine ⟨?_, ?_, fun _ => ⟨rfl, mset_self _ _ _⟩⟩
    · intro m hm
      simp at hm
      subst hm
      simp [Msg.recipient]
    · intro ts h
      cases h
  | some ts =>
    by_cases htw : ts.welcomed = true
    · have heval := chat_whisper_ok_eval ct hc hw hlen hrl hnc htid hts htw
      rw [heval]
      refine ⟨?_, ?_, ?_⟩
      · intro m hm
        by_cases htc : cs.whisperTargetID ≠ cid
        · rw [if_pos htc] at hm
          simp at hm
          rcases hm with rfl | rfl
          · simp [Msg.recipient]
          · simp [Msg.recipient]
        · rw [if_neg htc] at hm
          simp at hm
          subst hm
          simp [Msg.recipient]
      · intro ts' h' _
        rfl
      · intro hoff
        have := hoff ts rfl
        rw [htw] at this
        cases this
    · have hoff : ∀ ts', s.clients cs.whisperTargetID = some ts' →
          ts'.welcomed = false := by
        intro ts' h
        rw [hts] at h
        cases h
        revert htw
        cases ts.welcomed <;> simp
      have heval := chat_whisper_offline_eval ct hcid hc hw hlen hrl hnc htid hoff
      rw [heval]
      refine ⟨?_, ?_, fun _ => ⟨rfl, mset_self _ _ _⟩⟩
      · intro m hm
        simp at hm
        subst hm
        simp [Msg.recipient]
      · intro ts' h' htw'
        cases h'
        exact absurd htw' htw

theorem c7_whisper_isolation_witness :
    (HandleChatRequest exW3 1 .public (strB "secret") 2000).2 =
      Msg.chat 2 .whisper 1 (GetClientDisplayName exW3 1) (strB "secret") ::
      (if (2 : Nat) ≠ 1 then
         [Msg.chat 1 .whisper 1 (GetClientDisplayName exW3 1) (strB "secret")]
       else []) :=
  (@c7_whisper_isolation exW3 1
    { id := 1, connHandle := 10, uuid := 99, objectID := 0,
      lastTransform := 0, hasTransform := false, welcomed := true,
      nickname := strB "Player 1", whisperTargetID := 2,
      whisperTargetNickname := strB "Player 2", lastSeen := 0,
      lastChatTime := 1000 }
    .public (strB "secret") 2000
    (by decide) (by decide) (by decide) (by decide) (by decide) (by decide)
    (by decide)).2.1
    { id := 2, connHandle := 12, uuid := 0, objectID := 0,
      lastTransform := 0, hasTransform := false, welcomed := true,
      nickname := strB "Player 2", whisperTargetID := 0,
      whisperTargetNickname := [], lastSeen := 1, lastChatTime := 0 }
    (by decide) (by decide)

/-- C10: an accepted non-command submission whose whisper target is
the sender itself produces exactly one ChatDeliver message, to the
sender; the separate echo send is suppressed. -/
theorem c10_self_whisper_single {s : GameServer} {cid : Nat}
    {cs : ClientState} {ct : ChatType} {text : List Nat} {now : Nat}
    (hc : s.clients cid = some cs) (hw : cs.welcomed = true)
    (hself : cs.whisperTargetID = cid) (hcid : cid ≠ 0)
    (hlen : ¬(text.length = 0 ∨ 256 < text.length))
    (hrl : ¬(now - cs.lastChatTime < 300))
    (hnc : ¬(text.head? = some 47)) :
    (HandleChatRequest s cid ct text now).2 =
      [Msg.chat cid .whisper cid (GetClientDisplayName s cid) text] := by
  have htid : cs.whisperTargetID ≠ 0 := by
    rw [hself]
    exact hcid
  have hts : s.clients cs.whisperTargetID = some cs := by
    rw [hself]
    exact hc
  have heval := chat_whisper_ok_eval ct hc hw hlen hrl hnc htid hts hw
  rw [heval]
  dsimp only
  rw [hself]
  rw [if_neg (not_not_intro rfl)]

theorem c10_self_whisper_single_witness :
    (HandleChatRequest exS 1 .public (strB "hello me") 2000).2 =
      [Msg.chat 1 .whisper 1 (GetClientDisplayName exS 1) (strB "hello me")] :=
  @c10_self_whisper_single exS 1
    { id := 1, connHandle := 10, uuid := 99, objectID := 0,
      lastTransform := 0, hasTransform := false, welcomed := true,
      nickname := strB "Player 1", whisperTargetID := 1,
      whisperTargetNickname := strB "Player 1", lastSeen := 0,
      lastChatTime := 1000 }
    .public (strB "hello me") 2000
    (by decide) (by decide) (by decide) (by decide) (by decide) (by decide)
    (by decide)
